import Mathlib

/-!
Verification development for the Insomnia collection generator
(`scripts/generate-insomnia-collection.py`).

The script is a pure transformation from a parsed Swagger 2.0 JSON document
to an Insomnia 5.0 collection YAML text.  We shallowly embed the JSON data
model and the generation functions.  Python's dynamic failure modes
(AttributeError / TypeError / KeyError / IndexError) are modelled with an
`Except String` monad: a `.error` value marks an exception propagating out
of the corresponding Python call, and `.ok` marks normal return.
-/

/-- JSON values as produced by `json.load`: objects are insertion-ordered
association lists with string keys (Python 3 dicts preserve insertion
order), numbers are modelled as integers (every number appearing in the
generator itself is an integer). -/
inductive Json : Type where
  | null : Json
  | bool : Bool → Json
  | num : Int → Json
  | str : String → Json
  | arr : List Json → Json
  | obj : List (String × Json) → Json
deriving Repr

mutual

/-- Structural boolean equality on JSON values. -/
def Json.beq : Json → Json → Bool
  | .null, .null => true
  | .bool a, .bool b => a == b
  | .num a, .num b => a == b
  | .str a, .str b => a == b
  | .arr a, .arr b => Json.beqList a b
  | .obj a, .obj b => Json.beqFields a b
  | _, _ => false

def Json.beqList : List Json → List Json → Bool
  | [], [] => true
  | a :: as, b :: bs => Json.beq a b && Json.beqList as bs
  | _, _ => false

def Json.beqFields : List (String × Json) → List (String × Json) → Bool
  | [], [] => true
  | a :: as, b :: bs => a.1 == b.1 && Json.beq a.2 b.2 && Json.beqFields as bs
  | _, _ => false

end

instance : BEq Json := ⟨Json.beq⟩

mutual

theorem Json.beq_refl : ∀ a : Json, Json.beq a a = true
  | .null => rfl
  | .bool a => by simp [Json.beq]
  | .num a => by simp [Json.beq]
  | .str a => by simp [Json.beq]
  | .arr a => by simp [Json.beq, Json.beqList_refl a]
  | .obj a => by simp [Json.beq, Json.beqFields_refl a]

theorem Json.beqList_refl : ∀ a : List Json, Json.beqList a a = true
  | [] => rfl
  | x :: xs => by simp [Json.beqList, Json.beq_refl x, Json.beqList_refl xs]

theorem Json.beqFields_refl : ∀ a : List (String × Json), Json.beqFields a a = true
  | [] => rfl
  | x :: xs => by simp [Json.beqFields, Json.beq_refl x.2, Json.beqFields_refl xs]

end

mutual

theorem Json.eq_of_beq : ∀ a b : Json, Json.beq a b = true → a = b
  | .null, .null, _ => rfl
  | .bool a, .bool b, h => by simpa [Json.beq] using h
  | .num a, .num b, h => by simpa [Json.beq] using h
  | .str a, .str b, h => by simpa [Json.beq] using h
  | .arr a, .arr b, h => by
    rw [Json.eqList_of_beq a b (by simpa [Json.beq] using h)]
  | .obj a, .obj b, h => by
    rw [Json.eqFields_of_beq a b (by simpa [Json.beq] using h)]
  | .null, .bool _, h => by simp [Json.beq] at h
  | .null, .num _, h => by simp [Json.beq] at h
  | .null, .str _, h => by simp [Json.beq] at h
  | .null, .arr _, h => by simp [Json.beq] at h
  | .null, .obj _, h => by simp [Json.beq] at h
  | .bool _, .null, h => by simp [Json.beq] at h
  | .bool _, .num _, h => by simp [Json.beq] at h
  | .bool _, .str _, h => by simp [Json.beq] at h
  | .bool _, .arr _, h => by simp [Json.beq] at h
  | .bool _, .obj _, h => by simp [Json.beq] at h
  | .num _, .null, h => by simp [Json.beq] at h
  | .num _, .bool _, h => by simp [Json.beq] at h
  | .num _, .str _, h => by simp [Json.beq] at h
  | .num _, .arr _, h => by simp [Json.beq] at h
  | .num _, .obj _, h => by simp [Json.beq] at h
  | .str _, .null, h => by simp [Json.beq] at h
  | .str _, .bool _, h => by simp [Json.beq] at h
  | .str _, .num _, h => by simp [Json.beq] at h
  | .str _, .arr _, h => by simp [Json.beq] at h
  | .str _, .obj _, h => by simp [Json.beq] at h
  | .arr _, .null, h => by simp [Json.beq] at h
  | .arr _, .bool _, h => by simp [Json.beq] at h
  | .arr _, .num _, h => by simp [Json.beq] at h
  | .arr _, .str _, h => by simp [Json.beq] at h
  | .arr _, .obj _, h => by simp [Json.beq] at h
  | .obj _, .null, h => by simp [Json.beq] at h
  | .obj _, .bool _, h => by simp [Json.beq] at h
  | .obj _, .num _, h => by simp [Json.beq] at h
  | .obj _, .str _, h => by simp [Json.beq] at h
  | .obj _, .arr _, h => by simp [Json.beq] at h

theorem Json.eqList_of_beq : ∀ a b : List Json, Json.beqList a b = true → a = b
  | [], [], _ => rfl
  | x :: xs, y :: ys, h => by
    have h1 : Json.beq x y = true ∧ Json.beqList xs ys = true := by
      simpa [Json.beqList] using h
    rw [Json.eq_of_beq x y h1.1, Json.eqList_of_beq xs ys h1.2]
  | [], _ :: _, h => by simp [Json.beqList] at h
  | _ :: _, [], h => by simp [Json.beqList] at h

theorem Json.eqFields_of_beq :
    ∀ a b : List (String × Json), Json.beqFields a b = true → a = b
  | [], [], _ => rfl
  | x :: xs, y :: ys, h => by
    have h1 : (x.1 = y.1 ∧ Json.beq x.2 y.2 = true) ∧ Json.beqFields xs ys = true := by
      simpa [Json.beqFields] using h
    have h4 : x = y := Prod.ext h1.1.1 (Json.eq_of_beq _ _ h1.1.2)
    rw [h4, Json.eqFields_of_beq xs ys h1.2]
  | [], _ :: _, h => by simp [Json.beqFields] at h
  | _ :: _, [], h => by simp [Json.beqFields] at h

end

instance : LawfulBEq Json where
  eq_of_beq := fun h => Json.eq_of_beq _ _ h
  rfl := Json.beq_refl _

instance : DecidableEq Json := fun a b =>
  decidable_of_iff (Json.beq a b = true)
    ⟨Json.eq_of_beq a b, fun h => h ▸ Json.beq_refl a⟩

/-- First-match lookup in a JSON object's field list (Python dict lookup;
keys of parsed JSON objects are unique, so first match is the match). -/
def Json.lookup (fs : List (String × Json)) (k : String) : Option Json :=
  (fs.find? (fun kv => kv.1 == k)).map (fun kv => kv.2)

/-- Membership of a key in a JSON object's field list. -/
def Json.hasKey (fs : List (String × Json)) (k : String) : Bool :=
  fs.any (fun kv => kv.1 == k)

/-- Python truthiness (`bool(x)`) of a JSON-shaped value. -/
def truthy : Json → Bool
  | .null => false
  | .bool b => b
  | .num n => n != 0
  | .str s => !s.isEmpty
  | .arr xs => !xs.isEmpty
  | .obj fs => !fs.isEmpty

/-- Whether the value is a JSON object (Python `isinstance(x, dict)`). -/
def Json.isObj : Json → Bool
  | .obj _ => true
  | _ => false

/-- Whether the value is a JSON string (Python `isinstance(x, str)`). -/
def Json.isString : Json → Bool
  | .str _ => true
  | _ => false

/-- Prefix test on character lists. -/
def charListPre : List Char → List Char → Bool
  | [], _ => true
  | _ :: _, [] => false
  | a :: as, b :: bs => a == b && charListPre as bs

/-- Python `s.startswith(pat)`. -/
def strStarts (s pat : String) : Bool := charListPre pat.data s.data

/-- Drop the first `n` characters (Python slicing `s[n:]`). -/
def strDrop (s : String) (n : Nat) : String := String.mk (s.data.drop n)

/-- Character membership in a string. -/
def strContainsChar (s : String) (c : Char) : Bool := s.data.any (fun x => x == c)

/-- Split on a nonempty separator pattern, non-overlapping left-to-right
(the fuel argument, bounded by the list length, only drives the structural
recursion: each step consumes at least one character). -/
def splitListAux (pat : List Char) : Nat → List Char → List (List Char)
  | _, [] => [[]]
  | 0, l => [l]
  | n + 1, c :: cs =>
    if charListPre pat (c :: cs) then
      [] :: splitListAux pat n (List.drop (pat.length - 1) cs)
    else
      match splitListAux pat n cs with
      | [] => [[c]]
      | h :: t => (c :: h) :: t

/-- Python `s.split(pat)` for nonempty `pat` (an empty pattern keeps the
string whole; no caller passes one). -/
def strSplitOn (s pat : String) : List String :=
  if pat.data.isEmpty then [s]
  else (splitListAux pat.data s.data.length s.data).map String.mk

/-- Python `s.replace(pat, rep)`: all non-overlapping occurrences, left to
right (equal to joining the split pieces with the replacement). -/
def strReplace (s pat rep : String) : String :=
  if pat.data.isEmpty then
    String.mk (rep.data ++ s.data.flatMap (fun c => c :: rep.data))
  else String.intercalate rep (strSplitOn s pat)

/-- Python `s.upper()` (ASCII letters; every method name in scope is ASCII). -/
def strUpper (s : String) : String := String.mk (s.data.map Char.toUpper)

/-- Lexicographic code-point comparison of character lists (Python `<` on
strings). -/
def charListLt : List Char → List Char → Bool
  | [], [] => false
  | [], _ :: _ => true
  | _ :: _, [] => false
  | a :: as, b :: bs =>
    if a.toNat < b.toNat then true
    else if b.toNat < a.toNat then false
    else charListLt as bs

/-- Python `s < t` on strings. -/
def strLt (s t : String) : Bool := charListLt s.data t.data

/-- Python `s <= t` on strings. -/
def strLe (s t : String) : Bool := !(strLt t s)

/-- Parse a decimal natural number from all of the characters. -/
def parseNatChars : List Char → Option Nat
  | [] => none
  | l =>
    if l.all (fun c => 48 ≤ c.toNat && c.toNat ≤ 57) then
      some (l.foldl (fun acc c => 10 * acc + (c.toNat - 48)) 0)
    else none

/-- Parse an optionally negated decimal integer. -/
def strToInt (s : String) : Option Int :=
  match s.data with
  | '-' :: rest => (parseNatChars rest).map (fun n => -(n : Int))
  | l => (parseNatChars l).map (fun n => (n : Int))

/-- Substring test, Python `sub in s` for strings. -/
def strMem (sub s : String) : Bool :=
  if sub.isEmpty then true else (strSplitOn s sub).length ≥ 2

/-- Python `k in j` for a string `k`: key membership for dicts, substring
test for strings, element equality for lists; other values raise
`TypeError`. -/
def pyContains (j : Json) (k : String) : Except String Bool :=
  match j with
  | .obj fs => .ok (Json.hasKey fs k)
  | .str s => .ok (strMem k s)
  | .arr xs => .ok (xs.any (fun x => match x with | .str s => s == k | _ => false))
  | _ => .error "TypeError: argument is not iterable"

/-- Python `j.get(k, d)`: defaulting dict lookup; on a non-dict this is an
`AttributeError`. -/
def pyDictGet (j : Json) (k : String) (d : Json) : Except String Json :=
  match j with
  | .obj fs => .ok ((Json.lookup fs k).getD d)
  | _ => .error "AttributeError: object has no attribute get"

/-- Python `j[k]` for a string key: dict item access (`KeyError` when the
key is absent); strings and lists raise `TypeError` for string indices. -/
def pyGetItem (j : Json) (k : String) : Except String Json :=
  match j with
  | .obj fs =>
    match Json.lookup fs k with
    | some v => .ok v
    | none => .error "KeyError"
  | _ => .error "TypeError: indices must be integers"

/-- Python `j[0]`: head of a list (`IndexError` when empty), first character
of a string, `KeyError` on a JSON-derived dict (string keys only), and
`TypeError` otherwise. -/
def pyIndex0 (j : Json) : Except String Json :=
  match j with
  | .arr (x :: _) => .ok x
  | .arr [] => .error "IndexError: list index out of range"
  | .str s =>
    match s.data with
    | c :: _ => .ok (.str (String.singleton c))
    | [] => .error "IndexError: string index out of range"
  | .obj _ => .error "KeyError: 0"
  | _ => .error "TypeError: object is not subscriptable"

/-- Python `iter(j)` materialised as a list: lists yield elements, dicts
yield their keys, strings yield their characters; other values raise
`TypeError`. -/
def pyIter (j : Json) : Except String (List Json) :=
  match j with
  | .arr xs => .ok xs
  | .obj fs => .ok (fs.map (fun kv => Json.str kv.1))
  | .str s => .ok (s.data.map (fun c => Json.str (String.singleton c)))
  | _ => .error "TypeError: object is not iterable"

/-- Python `==` on JSON-shaped values.  The `bool`/`int` cross equality
(`True == 1`) is modelled; dict equality is modelled order-sensitively,
an approximation that the pipeline never exercises (dicts and lists are
unhashable and are rejected before ever being compared as keys). -/
def pyEq : Json → Json → Bool
  | .null, .null => true
  | .bool a, .bool b => a == b
  | .num a, .num b => a == b
  | .bool a, .num b => (if a then (1 : Int) else 0) == b
  | .num a, .bool b => a == (if b then (1 : Int) else 0)
  | .str a, .str b => a == b
  | .arr a, .arr b => a == b
  | .obj a, .obj b => a == b
  | _, _ => false

/-- Whether a JSON value is hashable in Python (usable as a dict key). -/
def pyHashable : Json → Bool
  | .arr _ => false
  | .obj _ => false
  | _ => true

/-- Characters stripped by Python's `str.strip()`. -/
def pySpace (c : Char) : Bool :=
  c == ' ' || c == '\t' || c == '\n' || c == '\x0d' || c == '\x0b' || c == '\x0c'

/-- Python `str.strip()`. -/
def pyStrip (s : String) : String :=
  String.mk (((s.data.dropWhile pySpace).reverse.dropWhile pySpace).reverse)

/-- Python `repr` of a JSON-shaped value (used by `str()` on containers in
f-strings).  String quoting is approximated with single quotes and
backslash escapes; no claim exercises container interpolation. -/
def reprEscape (s : String) : String :=
  strReplace (strReplace s "\\" "\\\\") "\x27" "\\\x27"

mutual

def pyRepr : Json → String
  | .null => "None"
  | .bool true => "True"
  | .bool false => "False"
  | .num n => toString n
  | .str s => "\x27" ++ reprEscape s ++ "\x27"
  | .arr xs => "[" ++ String.intercalate ", " (pyReprList xs) ++ "]"
  | .obj fs => "\x7b" ++ String.intercalate ", " (pyReprFields fs) ++ "\x7d"

def pyReprList : List Json → List String
  | [] => []
  | x :: xs => pyRepr x :: pyReprList xs

def pyReprFields : List (String × Json) → List String
  | [] => []
  | kv :: fs =>
    ("\x27" ++ reprEscape kv.1 ++ "\x27: " ++ pyRepr kv.2) :: pyReprFields fs

end

/-- Python `str()` of a JSON-shaped value, as interpolated by f-strings. -/
def pyStr : Json → String
  | .str s => s
  | j => pyRepr j

/-- UTF-8 encoding of a single code point. -/
def utf8Bytes (c : Nat) : List Nat :=
  if c < 128 then [c]
  else if c < 2048 then [192 + c / 64, 128 + c % 64]
  else if c < 65536 then [224 + c / 4096, 128 + (c / 64) % 64, 128 + c % 64]
  else [240 + c / 262144, 128 + (c / 4096) % 64, 128 + (c / 64) % 64, 128 + c % 64]

/-- UTF-8 bytes of a string (Python `s.encode()`). -/
def strUtf8 (s : String) : List Nat :=
  s.data.flatMap (fun c => utf8Bytes c.toNat)

/-- MD5 round constants (RFC 1321 table T). -/
def md5K : List Nat :=
  [0xd76aa478, 0xe8c7b756, 0x242070db, 0xc1bdceee,
   0xf57c0faf, 0x4787c62a, 0xa8304613, 0xfd469501,
   0x698098d8, 0x8b44f7af, 0xffff5bb1, 0x895cd7be,
   0x6b901122, 0xfd987193, 0xa679438e, 0x49b40821,
   0xf61e2562, 0xc040b340, 0x265e5a51, 0xe9b6c7aa,
   0xd62f105d, 0x02441453, 0xd8a1e681, 0xe7d3fbc8,
   0x21e1cde6, 0xc33707d6, 0xf4d50d87, 0x455a14ed,
   0xa9e3e905, 0xfcefa3f8, 0x676f02d9, 0x8d2a4c8a,
   0xfffa3942, 0x8771f681, 0x6d9d6122, 0xfde5380c,
   0xa4beea44, 0x4bdecfa9, 0xf6bb4b60, 0xbebfbc70,
   0x289b7ec6, 0xeaa127fa, 0xd4ef3085, 0x04881d05,
   0xd9d4d039, 0xe6db99e5, 0x1fa27cf8, 0xc4ac5665,
   0xf4292244, 0x432aff97, 0xab9423a7, 0xfc93a039,
   0x655b59c3, 0x8f0ccc92, 0xffeff47d, 0x85845dd1,
   0x6fa87e4f, 0xfe2ce6e0, 0xa3014314, 0x4e0811a1,
   0xf7537e82, 0xbd3af235, 0x2ad7d2bb, 0xeb86d391]

/-- MD5 per-round left-rotation amounts. -/
def md5S : List Nat :=
  [7, 12, 17, 22, 7, 12, 17, 22, 7, 12, 17, 22, 7, 12, 17, 22,
   5, 9, 14, 20, 5, 9, 14, 20, 5, 9, 14, 20, 5, 9, 14, 20,
   4, 11, 16, 23, 4, 11, 16, 23, 4, 11, 16, 23, 4, 11, 16, 23,
   6, 10, 15, 21, 6, 10, 15, 21, 6, 10, 15, 21, 6, 10, 15, 21]

/-- Left rotation of a 32-bit word. -/
def rotl32 (x n : Nat) : Nat :=
  (x * 2 ^ n) % 4294967296 + x / 2 ^ (32 - n)

/-- MD5 nonlinear function for round `i` (complement is `2^32 - 1 - x`). -/
def md5F (i b c d : Nat) : Nat :=
  if i < 16 then (b &&& c) ||| ((4294967295 - b) &&& d)
  else if i < 32 then (d &&& b) ||| ((4294967295 - d) &&& c)
  else if i < 48 then b ^^^ c ^^^ d
  else c ^^^ (b ||| (4294967295 - d))

/-- MD5 message-word index for round `i`. -/
def md5G (i : Nat) : Nat :=
  if i < 16 then i
  else if i < 32 then (5 * i + 1) % 16
  else if i < 48 then (3 * i + 5) % 16
  else (7 * i) % 16

/-- Little-endian 32-bit word `j` of a 64-byte chunk. -/
def leWord (b : List Nat) (j : Nat) : Nat :=
  b.getD (4 * j) 0 + 256 * b.getD (4 * j + 1) 0 +
    65536 * b.getD (4 * j + 2) 0 + 16777216 * b.getD (4 * j + 3) 0

/-- One MD5 round applied to the running `(a, b, c, d)` state. -/
def md5Step (M : List Nat) (st : Nat × Nat × Nat × Nat) (i : Nat) :
    Nat × Nat × Nat × Nat :=
  match st with
  | (a, b, c, d) =>
    let tmp := (a + md5F i b c d + md5K.getD i 0 + M.getD (md5G i) 0) % 4294967296
    (d, (b + rotl32 tmp (md5S.getD i 0)) % 4294967296, b, c)

/-- Process one 64-byte chunk. -/
def md5Chunk (st : Nat × Nat × Nat × Nat) (chunk : List Nat) :
    Nat × Nat × Nat × Nat :=
  let M := (List.range 16).map (leWord chunk)
  match (List.range 64).foldl (md5Step M) st with
  | (a, b, c, d) =>
    ((st.1 + a) % 4294967296, (st.2.1 + b) % 4294967296,
     (st.2.2.1 + c) % 4294967296, (st.2.2.2 + d) % 4294967296)

/-- Little-endian byte decomposition of a 64-bit length. -/
def le8 (n : Nat) : List Nat :=
  (List.range 8).map (fun i => n / 2 ^ (8 * i) % 256)

/-- Little-endian byte decomposition of a 32-bit word. -/
def le4 (n : Nat) : List Nat :=
  [n % 256, n / 256 % 256, n / 65536 % 256, n / 16777216 % 256]

/-- MD5 padding: append `0x80`, zero bytes up to 56 mod 64, then the
bit length as 8 little-endian bytes. -/
def md5Pad (msg : List Nat) : List Nat :=
  msg ++ 128 :: List.replicate ((119 - msg.length % 64) % 64) 0 ++
    le8 (msg.length * 8 % 18446744073709551616)

/-- Split a byte list into 64-byte chunks (structural accumulator form of
take-64/drop-64). -/
def chunksAcc : List Nat → List Nat → List (List Nat)
  | acc, [] => if acc.isEmpty then [] else [acc.reverse]
  | acc, x :: xs =>
    if acc.length == 63 then (x :: acc).reverse :: chunksAcc [] xs
    else chunksAcc (x :: acc) xs

/-- Split a byte list into 64-byte chunks. -/
def chunks64 (l : List Nat) : List (List Nat) := chunksAcc [] l

/-- Lowercase hexadecimal digit. -/
def hexDigitChar (n : Nat) : Char :=
  if n < 10 then Char.ofNat (48 + n) else Char.ofNat (87 + n)

/-- Two lowercase hex digits of a byte. -/
def byteHex (b : Nat) : String :=
  String.mk [hexDigitChar (b / 16), hexDigitChar (b % 16)]

/-- MD5 hex digest of a byte list. -/
def md5Hex (msg : List Nat) : String :=
  match (chunks64 (md5Pad msg)).foldl md5Chunk
      (0x67452301, 0xefcdab89, 0x98badcfe, 0x10325476) with
  | (a, b, c, d) =>
    String.join ((le4 a ++ le4 b ++ le4 c ++ le4 d).map byteHex)

/-- Source `md5_id`: a deterministic Insomnia-style ID from a seed string
(`hashlib.md5(seed.encode()).hexdigest()` formatted under the prefix). -/
def md5_id (pre : String) (seed : String) : String :=
  pre ++ "_" ++ md5Hex (strUtf8 seed)

set_option maxRecDepth 4000 in
/-- RFC 1321 test vector: the empty message. -/
theorem md5Hex_empty : md5Hex (strUtf8 "") = "d41d8cd98f00b204e9800998ecf8427e" := rfl

set_option maxRecDepth 4000 in
/-- RFC 1321 test vector: "abc". -/
theorem md5Hex_abc : md5Hex (strUtf8 "abc") = "900150983cd24fb0d6963f7d28e17f72" := rfl

/-- Source `resolve_ref`: resolve a local reference like
`#/definitions/v1.ERC2771` against the document's definitions table.
A non-string reference raises (no `startswith` attribute); a non-dict
definitions table raises (no `get` attribute). -/
def resolve_ref (spec : Json) (ref : Json) : Except String (Option Json) :=
  match ref with
  | .str s =>
    if strStarts s "#/definitions/" then do
      let defs ← pyDictGet spec "definitions" (.obj [])
      match defs with
      | .obj ds => pure (Json.lookup ds (strDrop s 14))
      | _ => .error "AttributeError: object has no attribute get"
    else pure none
  | _ => .error "AttributeError: object has no attribute startswith"

/-- Core of `generate_sample_json`, structurally recursive on the
remaining depth `5 - depth`: the source's first-line `depth > 4` guard is
exactly the exhausted-fuel case (both return the empty object before
anything can fail), and each recursive call at `depth + 1` becomes a call
with one less remaining depth. -/
def sampleFuel (spec : Json) : Nat → Json → Except String Json
  | 0, _ => pure (.obj [])
  | n + 1, schema => do
    let hasRef ← pyContains schema "$ref"
    if hasRef then do
      let refv ← pyGetItem schema "$ref"
      let resolved ← resolve_ref spec refv
      match resolved with
      | some r =>
        if truthy r then sampleFuel spec n r
        else pure (.obj [])
      | none => pure (.obj [])
    else do
      let schema_type ← pyDictGet schema "type" (.str "object")
      if pyEq schema_type (.str "string") then do
        let hasEnum ← pyContains schema "enum"
        if hasEnum then do
          let e ← pyGetItem schema "enum"
          pyIndex0 e
        else pure (.str "string")
      else if pyEq schema_type (.str "integer") then pure (.num 0)
      else if pyEq schema_type (.str "number") then pure (.num 0)
      else if pyEq schema_type (.str "boolean") then pure (.bool false)
      else if pyEq schema_type (.str "array") then do
        let items ← pyDictGet schema "items" (.obj [])
        let v ← sampleFuel spec n items
        pure (.arr [v])
      else do
        let hasProps ← pyContains schema "properties"
        if pyEq schema_type (.str "object") || hasProps then do
          let props ← pyDictGet schema "properties" (.obj [])
          let hasAddl ← pyContains schema "additionalProperties"
          if !truthy props && hasAddl then pure (.obj [])
          else
            match props with
            | .obj ps => do
              let fields ← ps.mapM (fun kv => do
                let v ← sampleFuel spec n kv.2
                pure (kv.1, v))
              pure (.obj fields)
            | _ => .error "AttributeError: object has no attribute items"
        else pure (.obj [])

/-- Source `generate_sample_json`: produce a sample JSON value from a
Swagger schema at recursion depth `depth` (the guard `depth > 4` of the
source is the case `5 - depth = 0` of the structural core). -/
def generate_sample_json (spec : Json) (schema : Json) (depth : Nat) :
    Except String Json :=
  sampleFuel spec (5 - depth) schema

/-- Source `yaml_escape`: quote a string for YAML output when it contains
a significant character or leads with a dash-space; backslashes and double
quotes are backslash-escaped inside the quotes.  The empty string becomes
a quoted empty string. -/
def yaml_escape (s : String) : String :=
  if s.isEmpty then "\"\""
  else
    let needs_quote :=
      (":\x7b\x7d[]&*?|>!%@\x60#,\n").data.any (fun c => strContainsChar s c) ||
        strStarts s "- "
    if needs_quote then
      "\"" ++ strReplace (strReplace s "\\" "\\\\") "\"" "\\\"" ++ "\""
    else s

/-- Substitution step of `format_url_path` for one parameter: a path-kind
parameter replaces its placeholder with the example value when truthy,
otherwise with an Insomnia template variable. -/
def substPathParam (url : String) (param : Json) : Except String String := do
  let loc ← pyDictGet param "in" .null
  if pyEq loc (.str "path") then do
    let exv ← pyDictGet param "example" (.str "")
    let nm ← pyGetItem param "name"
    match nm with
    | .str nmS =>
      if truthy exv then
        pure (strReplace url ("\x7b" ++ nmS ++ "\x7d") (pyStr exv))
      else
        pure (strReplace url ("\x7b" ++ nmS ++ "\x7d") ("\x7b\x7b _." ++ nmS ++ " \x7d\x7d"))
    | _ => .error "TypeError: can only concatenate str to str"
  else pure url

/-- Source `format_url_path`: fold the substitution over the parameter
list (iterating a non-list raises, as in Python). -/
def format_url_path (path : String) (params : Json) : Except String String := do
  let ps ← pyIter params
  ps.foldlM substPathParam path

/-- Seven blanks repeated: helper for indentation strings. -/
def spaces (n : Nat) : String := String.mk (List.replicate n ' ')

/-- Four lowercase hex digits. -/
def hex4 (n : Nat) : String :=
  String.mk [hexDigitChar (n / 4096 % 16), hexDigitChar (n / 256 % 16),
    hexDigitChar (n / 16 % 16), hexDigitChar (n % 16)]

/-- JSON string escaping as in Python's `json.dumps` with the default
`ensure_ascii=True`: named escapes, `\uXXXX` for other control or
non-ASCII characters, surrogate pairs beyond the BMP. -/
def jsonEscapeChar (c : Char) : String :=
  if c == '"' then "\\\""
  else if c == '\\' then "\\\\"
  else if c == '\n' then "\\n"
  else if c == '\r' then "\\r"
  else if c == '\t' then "\\t"
  else if c == '\x08' then "\\b"
  else if c == '\x0c' then "\\f"
  else if 32 ≤ c.toNat && c.toNat ≤ 126 then String.singleton c
  else if c.toNat < 65536 then "\\u" ++ hex4 c.toNat
  else
    "\\u" ++ hex4 (55296 + (c.toNat - 65536) / 1024) ++
      "\\u" ++ hex4 (56320 + (c.toNat - 65536) % 1024)

/-- JSON string literal. -/
def jsonQuote (s : String) : String :=
  "\"" ++ String.join (s.data.map jsonEscapeChar) ++ "\""

mutual

/-- Python `json.dumps(x, indent=2)` at nesting level `lvl`. -/
def jsonDumps (lvl : Nat) : Json → String
  | .null => "null"
  | .bool true => "true"
  | .bool false => "false"
  | .num n => toString n
  | .str s => jsonQuote s
  | .arr [] => "[]"
  | .arr (x :: xs) =>
    "[\n" ++ String.intercalate ",\n" (jsonDumpsList (lvl + 1) (x :: xs)) ++
      "\n" ++ spaces (2 * lvl) ++ "]"
  | .obj [] => "\x7b\x7d"
  | .obj (kv :: fs) =>
    "\x7b\n" ++ String.intercalate ",\n" (jsonDumpsFields (lvl + 1) (kv :: fs)) ++
      "\n" ++ spaces (2 * lvl) ++ "\x7d"

def jsonDumpsList (lvl : Nat) : List Json → List String
  | [] => []
  | x :: xs => (spaces (2 * lvl) ++ jsonDumps lvl x) :: jsonDumpsList lvl xs

def jsonDumpsFields (lvl : Nat) : List (String × Json) → List String
  | [] => []
  | kv :: fs =>
    (spaces (2 * lvl) ++ jsonQuote kv.1 ++ ": " ++ jsonDumps lvl kv.2) ::
      jsonDumpsFields lvl fs

end

/-- HTTP methods for which a request body is emitted. -/
def methodsWithBody : List String := ["POST", "PUT", "PATCH"]

/-- Python `next((p for p in params if p.get("in") == "body"), None)`:
lazily scan for the first body-kind parameter, yielding `null` (Python
`None`) when there is none; a non-dict element reached before a match
raises. -/
def findBody : List Json → Except String Json
  | [] => pure .null
  | p :: rest => do
    let loc ← pyDictGet p "in" .null
    if pyEq loc (.str "body") then pure p else findBody rest

/-- The operation's parameter list value, `op.get("parameters", [])`. -/
def opParams (op : Json) : Except String Json := pyDictGet op "parameters" (.arr [])

/-- First body-kind parameter of an operation (`null` when there is none). -/
def firstBodyParam (op : Json) : Except String Json := do
  let params ← opParams op
  let ps ← pyIter params
  findBody ps

/-- The request MIME type: first entry of `consumes` when that value is
truthy, else the JSON default (also the default when the key is absent). -/
def opMime (op : Json) : Except String Json := do
  let consumes ← pyDictGet op "consumes" (.arr [.str "application/json"])
  if truthy consumes then pyIndex0 consumes else pure (.str "application/json")

/-- Fixed head of a request fragment: url, name and meta lines. -/
def requestHead (url_path : String) (req_id : String) (summary : Json) : List String :=
  ["      - url: >-",
   "            \x7b\x7b _.base_url \x7d\x7d" ++ url_path,
   "        name: " ++ pyStr summary,
   "        meta:",
   "          id: " ++ req_id,
   "          created: 1749660554120",
   "          modified: 1749660554120",
   "          isPrivate: false"]

/-- Description lines of a request fragment: a truthy single-line
description is YAML-escaped inline; a multi-line one becomes a literal
block; a truthy non-string raises at `.strip()`. -/
def descLines (description : Json) : Except String (List String) :=
  if truthy description then
    match description with
    | .str d =>
      match strSplitOn (pyStrip d) "\n" with
      | [single] => pure ["          description: " ++ yaml_escape single]
      | dls => pure ("          description: |-" :: dls.map (fun dl => "            " ++ dl))
    | _ => .error "AttributeError: object has no attribute strip"
  else pure []

/-- Body section of a request fragment once a schema-carrying body
parameter was found: mime type, literal text block of the dumped sample,
and a headers list opening with Content-Type. -/
def bodyBlock (mime : Json) (body_json : String) : List String :=
  ["        body:",
   "          mimeType: " ++ pyStr mime,
   "          text: |-"] ++
  (strSplitOn body_json "\n").map (fun bl => "            " ++ bl) ++
  ["        headers:",
   "          - name: Content-Type",
   "            disabled: false",
   "            value: " ++ pyStr mime]

/-- Body segment: emitted only for POST/PUT/PATCH when the first body-kind
parameter is truthy (`body_param and ...`) and carries a `schema` key. -/
def bodySeg (spec : Json) (method : String) (op : Json) (ps : List Json) :
    Except String (List String) := do
  if methodsWithBody.contains (strUpper method) then do
    let bp ← findBody ps
    if truthy bp then do
      let hasSchema ← pyContains bp "schema"
      if hasSchema then do
        let sch ← pyGetItem bp "schema"
        let sample ← generate_sample_json spec sch 0
        let mime ← opMime op
        pure (bodyBlock mime (jsonDumps 0 sample))
      else pure []
    else pure []
  else pure []

/-- Keep the query-kind parameters (list comprehension over all elements). -/
def queryFilter : List Json → Except String (List Json)
  | [] => pure []
  | p :: rest => do
    let loc ← pyDictGet p "in" .null
    let tail ← queryFilter rest
    pure (if pyEq loc (.str "query") then p :: tail else tail)

/-- Lines of one disabled query parameter entry. -/
def queryParamLines (qp : Json) : Except String (List String) := do
  let exv ← pyDictGet qp "example" (.str "")
  let nm ← pyGetItem qp "name"
  pure ["          - name: " ++ pyStr nm,
    "            disabled: true",
    "            value: \"" ++ pyStr exv ++ "\""]

/-- Query-parameters segment. -/
def querySeg (ps : List Json) : Except String (List String) := do
  let qps ← queryFilter ps
  if qps.isEmpty then pure []
  else do
    let items ← qps.mapM queryParamLines
    pure ("        parameters:" :: items.flatten)

/-- Auth segment: for a secured operation, a `headers:` key is opened only
when no body-parameter headers list was already opened, then the
Authorization entry referencing the shared credential variable follows. -/
def authSeg (method : String) (op : Json) (ps : List Json) :
    Except String (List String) := do
  let sec ← pyDictGet op "security" .null
  if truthy sec then do
    let needHeaderKey ←
      if methodsWithBody.contains (strUpper method) then do
        let bp ← findBody ps
        pure (!truthy bp)
      else pure true
    pure ((if needHeaderKey then ["        headers:"] else []) ++
      ["          - name: Authorization",
       "            disabled: false",
       "            value: >-",
       "              \x7b\x7b _.api_key \x7d\x7d"])
  else pure []

/-- Fixed settings lines closing every request fragment. -/
def settingsSeg : List String :=
  ["        settings:",
   "          renderRequestBody: true",
   "          encodeUrl: true",
   "          followRedirects: global",
   "          cookies:",
   "            send: true",
   "            store: true",
   "          rebuildPath: true"]

/-- Source `generate_request_yaml`, producing the fragment's lines in
emission order (the source joins the same lines with newlines). -/
def generate_request_yaml_lines (spec : Json) (path : String) (method : String)
    (op : Json) (sort_key : Int) : Except String (List String) := do
  let params ← opParams op
  let url_path ← format_url_path path params
  let req_id := md5_id "req" (method ++ ":" ++ path)
  let summary ← pyDictGet op "summary" (.str (strUpper method ++ " " ++ path))
  let description ← pyDictGet op "description" (.str "")
  let ps ← pyIter params
  let dsc ← descLines description
  let bdy ← bodySeg spec method op ps
  let qry ← querySeg ps
  let auth ← authSeg method op ps
  pure (requestHead url_path req_id summary ++ dsc ++
    ["          sortKey: " ++ toString sort_key,
     "        method: " ++ strUpper method] ++
    bdy ++ qry ++ auth ++ settingsSeg)

/-- Source `generate_request_yaml`: the fragment as one newline-joined
string. -/
def generate_request_yaml (spec : Json) (path : String) (method : String)
    (op : Json) (sort_key : Int) : Except String String := do
  let ls ← generate_request_yaml_lines spec path method op sort_key
  pure (String.intercalate "\n" ls)

/-- Grouping map: tag key (any hashable JSON value) to the list of
`(path, method, operation)` entries appended in scan order. -/
abbrev TagsMap := List (Json × List (String × String × Json))

/-- Dict lookup keyed by Python equality. -/
def pyKeyLookup (tm : TagsMap) (t : Json) : Option (List (String × String × Json)) :=
  (tm.find? (fun kv => pyEq t kv.1)).map (fun kv => kv.2)

/-- Append an entry to the bucket of `t`, creating a fresh bucket at the
end when `t` is a new key (Python `setdefault(tag, []).append(e)`). -/
def tagsAppend (tm : TagsMap) (t : Json) (e : String × String × Json) : TagsMap :=
  match tm with
  | [] => [(t, [e])]
  | kv :: rest =>
    if pyEq t kv.1 then (kv.1, kv.2 ++ [e]) :: rest
    else kv :: tagsAppend rest t e

/-- Insert under a tag key; unhashable keys (lists, dicts) raise. -/
def tagsInsert (tm : TagsMap) (t : Json) (e : String × String × Json) :
    Except String TagsMap :=
  if pyHashable t then pure (tagsAppend tm t e) else .error "TypeError: unhashable type"

/-- Fold one operation's tag list into the map. -/
def insertTags : TagsMap → (String × String × Json) → List Json → Except String TagsMap
  | tm, _, [] => pure tm
  | tm, e, t :: ts => do
    let tm2 ← tagsInsert tm t e
    insertTags tm2 e ts

/-- An operation entry participates only when it is a dict with a
`responses` key. -/
def validOp : Json → Bool
  | .obj fs => Json.hasKey fs "responses"
  | _ => false

/-- Process one `(path, method, op)` triple of the scan. -/
def processOp (tm : TagsMap) (path : String) (method : String) (op : Json) :
    Except String TagsMap :=
  if validOp op then do
    let tv ← pyDictGet op "tags" (.arr [.str "other"])
    let tl ← pyIter tv
    insertTags tm (path, method, op) tl
  else pure tm

/-- Process one path item (its methods dict). -/
def processPath (tm : TagsMap) (path : String) (methods : Json) :
    Except String TagsMap :=
  match methods with
  | .obj ms => ms.foldlM (fun acc kv => processOp acc path kv.1 kv.2) tm
  | _ => .error "AttributeError: object has no attribute items"

/-- Grouping phase of `generate_collection`: scan `spec["paths"]` in
document order and group the valid operations by tag. -/
def buildTags (spec : Json) : Except String TagsMap := do
  let pathsv ← pyDictGet spec "paths" (.obj [])
  match pathsv with
  | .obj pts => pts.foldlM (fun acc kv => processPath acc kv.1 kv.2) []
  | _ => .error "AttributeError: object has no attribute items"

/-- Comparator modelling the Python sort key `(path, method)` under the
stable list sort: lexicographic by path then method, code-point order. -/
def endpointLe (a b : String × String × Json) : Bool :=
  strLt a.1 b.1 || (a.1 == b.1 && strLe a.2.1 b.2.1)

/-- Stable insertion: the new element goes before the first already-placed
element it compares `le` to, so equal keys keep their original relative
order. -/
def insertLe {α : Type} (le : α → α → Bool) (a : α) : List α → List α
  | [] => [a]
  | b :: bs => if le a b then a :: b :: bs else b :: insertLe le a bs

/-- Stable sort by a boolean total preorder.  Python's `list.sort` is a
stable sort by the key preorder, and any two stable sorts under the same
total preorder agree, so this models `tags[tag].sort(key=...)` exactly. -/
def insertionSortBy {α : Type} (le : α → α → Bool) : List α → List α
  | [] => []
  | x :: xs => insertLe le x (insertionSortBy le xs)

/-- Sort each tag's endpoint list by `(path, method)`. -/
def sortTags (tm : TagsMap) : TagsMap :=
  tm.map (fun kv => (kv.1, insertionSortBy endpointLe kv.2))

/-- Whether one endpoint's operation declares truthy security. -/
def opSecured (e : String × String × Json) : Except String Bool := do
  let sec ← pyDictGet e.2.2 "security" .null
  pure (truthy sec)

/-- Source `secured_tags` set, as the list of tags with at least one
secured endpoint, in map order. -/
def secured_tags (tm : TagsMap) : Except String (List Json) := do
  let flags ← tm.mapM (fun kv => do
    let bs ← kv.2.mapM opSecured
    pure (kv.1, bs.any id))
  pure ((flags.filter (fun kv => kv.2)).map (fun kv => kv.1))

/-- Hard-coded preferred tag order. -/
def tagOrderJson : List Json := [.str "meta", .str "chain", .str "game"]

/-- Python `t in l` for a list, via Python equality. -/
def pyMemList (t : Json) (l : List Json) : Bool := l.any (fun x => pyEq t x)

/-- Source `all_tags`: the preferred order followed by any further keys in
first-seen order. -/
def buildAllTags (keys : List Json) : List Json :=
  keys.foldl (fun acc t => if pyMemList t acc then acc else acc ++ [t]) tagOrderJson

/-- Folder-level bearer authentication lines. -/
def folderAuthLines : List String :=
  ["    authentication:",
   "      type: bearer",
   "      token: >-",
   "        \x7b\x7b _.api_key \x7d\x7d"]

/-- Folder meta lines carrying the current sort counter. -/
def folderHead (tag : Json) (c : Int) : List String :=
  ["  - name: " ++ pyStr tag,
   "    meta:",
   "      id: " ++ md5_id "fld" ("folder:" ++ pyStr tag),
   "      created: 1749660554120",
   "      modified: 1749660554120",
   "      sortKey: " ++ toString c,
   "    children:"]

/-- Render the folder's requests; request `i` receives sort key `c1 - i`
where `c1` is the counter value after the folder's decrement. -/
def renderEndpoints (spec : Json) (c1 : Int) (eps : List (String × String × Json)) :
    Except String (List String) := do
  let ls ← eps.enum.mapM (fun ie =>
    generate_request_yaml_lines spec ie.2.1 ie.2.2.1 ie.2.2.2 (c1 - (ie.1 : Int)))
  pure ls.flatten

/-- Render one folder: head at counter `c`, requests from `c - 1`, and the
bearer block when the tag is secured. -/
def renderFolder (spec : Json) (tag : Json) (eps : List (String × String × Json))
    (secured : Bool) (c : Int) : Except String (List String) := do
  let reqs ← renderEndpoints spec (c - 1) eps
  pure (folderHead tag c ++ reqs ++ (if secured then folderAuthLines else []))

/-- Main folder loop of `generate_collection`: walk `all_tags`, skip the
absent ones, and decrement the counter once per rendered folder. -/
def renderAllTags (spec : Json) (tm : TagsMap) (sec : List Json) :
    List Json → Int → Except String (List String)
  | [], _ => pure []
  | t :: rest, c =>
    match pyKeyLookup tm t with
    | none => renderAllTags spec tm sec rest c
    | some eps => do
      let blk ← renderFolder spec t eps (pyMemList t sec) c
      let restL ← renderAllTags spec tm sec rest (c - 1)
      pure (blk ++ restL)

/-- Fixed head of the collection document. -/
def collectionHead (version : Json) : List String :=
  ["type: collection.insomnia.rest/5.0",
   "name: EVE Frontier World API (" ++ pyStr version ++ ")",
   "meta:",
   "  id: " ++ md5_id "wrk" "world-api-collection",
   "  created: 1749660438111",
   "  modified: 1749660438111",
   "collection:"]

/-- Fixed cookie jar and environment lines closing the document. -/
def collectionTail : List String :=
  ["cookieJar:",
   "  name: Default Jar",
   "  meta:",
   "    id: " ++ md5_id "jar" "default-cookie-jar",
   "    created: 1749660438113",
   "    modified: 1749660438113",
   "environments:",
   "  name: Base Environment",
   "  meta:",
   "    id: " ++ md5_id "env" "base-environment",
   "    created: 1749660438112",
   "    modified: 1749660438112",
   "    isPrivate: false",
   "  data:",
   "    scheme: https",
   "    base_path: \"\"",
   "    base_url: >-",
   "      \x7b\x7b _.scheme \x7d\x7d://\x7b\x7b _.host \x7d\x7d\x7b\x7b _.base_path \x7d\x7d",
   "  subEnvironments:",
   "    - name: Stillness",
   "      meta:",
   "        id: " ++ md5_id "env" "stillness-environment",
   "        created: 1749660554120",
   "        modified: 1749660554120",
   "        isPrivate: false",
   "        sortKey: 1749660554120",
   "      data:",
   "        host: blockchain-gateway-stillness.live.tech.evefrontier.com",
   "        api_key: eyABC.123",
   "      color: \"#ff4a00\""]

/-- The document version, `spec.get("info", {}).get("version", "unknown")`. -/
def specVersion (spec : Json) : Except String Json := do
  let info ← pyDictGet spec "info" (.obj [])
  pyDictGet info "version" (.str "unknown")

/-- Initial value of the decrementing sort counter. -/
def startCounter : Int := -1749660554120

/-- Source `generate_collection`, as the list of output lines (request
fragments flattened into their lines; the joined text is identical). -/
def generate_collection_lines (spec : Json) : Except String (List String) := do
  let version ← specVersion spec
  let tm0 ← buildTags spec
  let tm := sortTags tm0
  let sec ← secured_tags tm
  let allTags := buildAllTags (tm.map (fun kv => kv.1))
  let folders ← renderAllTags spec tm sec allTags startCounter
  pure (collectionHead version ++ folders ++ collectionTail)

/-- Source `generate_collection`: the full output text with its trailing
newline. -/
def generate_collection (spec : Json) : Except String String := do
  let ls ← generate_collection_lines spec
  pure (String.intercalate "\n" ls ++ "\n")

/-! ## Generic lemmas about the error monad -/

theorem except_bind_ok {α β : Type} {a : α} {f : α → Except String β} :
    (Except.ok a >>= f) = f a := rfl

theorem except_bind_eq_ok {α β : Type} {e : Except String α}
    {f : α → Except String β} {b : β} (h : (e >>= f) = .ok b) :
    ∃ a, e = .ok a ∧ f a = .ok b := by
  cases e with
  | error e => exact absurd h (by simp [Bind.bind, Except.bind])
  | ok a => exact ⟨a, rfl, h⟩

theorem except_map_isOk {α β : Type} {e : Except String α} {f : α → β} :
    (e.map f).isOk = e.isOk := by
  cases e <;> rfl

@[simp] theorem isOk_ok {α : Type} (a : α) :
    (Except.ok a : Except String α).isOk = true := rfl

@[simp] theorem isOk_pure {α : Type} (a : α) :
    (pure a : Except String α).isOk = true := rfl

@[simp] theorem isOk_error {α : Type} (e : String) :
    (Except.error e : Except String α).isOk = false := rfl

@[simp] theorem except_pure_bind {α β : Type} (a : α) (f : α → Except String β) :
    ((pure a : Except String α) >>= f) = f a := rfl

@[simp] theorem except_ok_bind {α β : Type} (a : α) (f : α → Except String β) :
    ((Except.ok a : Except String α) >>= f) = f a := rfl

@[simp] theorem except_error_bind {α β : Type} (e : String) (f : α → Except String β) :
    ((Except.error e : Except String α) >>= f) = Except.error e := rfl

/-! ## Example documents used by concrete evaluations -/

/-- Representative input document: one tagged GET with a path parameter,
one tagged POST with a referenced body schema, a query parameter and
security. -/
def exampleDoc : Json := .obj [
  ("info", .obj [("version", .str "1.0")]),
  ("definitions", .obj [
    ("v1.Thing", .obj [("type", .str "object"),
      ("properties", .obj [("name", .obj [("type", .str "string")]),
                           ("age", .obj [("type", .str "integer")])])])]),
  ("paths", .obj [
    ("/characters/\x7bid\x7d", .obj [
      ("get", .obj [
        ("tags", .arr [.str "chain"]),
        ("summary", .str "Get a character"),
        ("parameters", .arr [.obj [("name", .str "id"), ("in", .str "path")]]),
        ("responses", .obj [])])]),
    ("/things", .obj [
      ("post", .obj [
        ("tags", .arr [.str "game"]),
        ("consumes", .arr [.str "application/json"]),
        ("security", .arr [.obj [("bearer", .arr [])]]),
        ("parameters", .arr [
          .obj [("name", .str "body"), ("in", .str "body"),
                ("schema", .obj [("$ref", .str "#/definitions/v1.Thing")])],
          .obj [("name", .str "limit"), ("in", .str "query"), ("example", .num 10)]]),
        ("responses", .obj [])])])])]

/-! ## C1 -/

/-- C1: determinism of generation.  `generate_collection` is a pure
function of the parsed input document: for any fixed input document, any
two independent evaluations produce byte-identical output text (the
embedding is a function precisely because the source draws on no clock
and no randomness; identifiers come from `md5_id` and the only timestamps
are the fixed constants). -/
theorem C1_determinism (d₁ d₂ : Json) (h : d₁ = d₂) :
    generate_collection d₁ = generate_collection d₂ := by rw [h]

/-- Witness for C1: two evaluations on the same concrete document agree,
and the evaluation succeeds. -/
theorem C1_determinism_witness :
    generate_collection exampleDoc = generate_collection exampleDoc ∧
      (generate_collection exampleDoc).isOk = true :=
  ⟨C1_determinism exampleDoc exampleDoc rfl, rfl⟩

/-! ## C2, counterexample part -/

/-- Schema with arbitrary (empty) enum contents: `schema["enum"][0]`
raises IndexError in the source, so synthesis is not total. -/
def emptyEnumSchema : Json := .obj [("type", .str "string"), ("enum", .arr [])]

/-- Counterexample to C2: at the malformed schema with an empty `enum`
list, `generate_sample_json` raises (IndexError) instead of returning a
value, so an exception does propagate out of the call. -/
theorem C2_totality_counterexample :
    generate_sample_json (.obj []) emptyEnumSchema 0 =
        .error "IndexError: list index out of range" ∧
      (generate_sample_json (.obj []) emptyEnumSchema 0).isOk = false :=
  ⟨rfl, rfl⟩

/-! ## C3 -/

/-- A schema node that is just a reference to the named definition. -/
def refTo (n : String) : Json := .obj [("$ref", .str ("#/definitions/" ++ n))]

/-- Definitions table whose entries form a reference cycle of length 10. -/
def cyclicSpec : Json := .obj [("definitions", .obj [
  ("L0", refTo "L1"), ("L1", refTo "L2"), ("L2", refTo "L3"),
  ("L3", refTo "L4"), ("L4", refTo "L5"), ("L5", refTo "L6"),
  ("L6", refTo "L7"), ("L7", refTo "L8"), ("L8", refTo "L9"),
  ("L9", refTo "L0")])]

/-- C3: depth bound and termination.  For every schema (and every spec)
at depth above 4, synthesis immediately returns the empty object; and a
schema self-referential through its `$ref` chain (here through a cycle of
ten definitions) synthesizes to the empty object at the cutoff instead of
looping (the embedding is total by construction, so termination holds on
every schema). -/
theorem C3_depth_cutoff :
    (∀ (spec schema : Json) (d : Nat), d > 4 →
        generate_sample_json spec schema d = .ok (.obj [])) ∧
      generate_sample_json cyclicSpec (refTo "L0") 0 = .ok (.obj []) := by
  constructor
  · intro spec schema d hd
    have h5 : 5 - d = 0 := by omega
    simp only [generate_sample_json, h5]
    rfl
  · rfl

/-- Witness for C3: the cutoff at concrete depth 5. -/
theorem C3_depth_cutoff_witness :
    generate_sample_json (.obj []) (.obj [("type", .str "string")]) 5 = .ok (.obj []) :=
  C3_depth_cutoff.1 _ _ 5 (by decide)

/-! ## C8 -/

/-- Failing input for C8: a secured POST operation with both a
schema-carrying body parameter and a query parameter. -/
def securedBodyQueryOp : Json := .obj [
  ("responses", .obj []),
  ("security", .arr [.obj [("bearer", .arr [])]]),
  ("parameters", .arr [
    .obj [("name", .str "body"), ("in", .str "body"),
          ("schema", .obj [("type", .str "string")])],
    .obj [("name", .str "q"), ("in", .str "query")]])]

set_option maxRecDepth 4000 in
/-- C8, evaluation at the failing input: the emitted fragment contains the
Content-Type entry inside the body's `headers:` list, but the
Authorization entry is emitted immediately after the query-parameters
block with no `headers:` key of its own, so it textually extends the
`parameters:` list instead of coexisting with Content-Type in one header
list (the code's comment intends the latter). -/
theorem C8_auth_after_parameters :
    generate_request_yaml_lines (.obj []) "/w" "post" securedBodyQueryOp 0 = .ok
      ["      - url: >-",
       "            \x7b\x7b _.base_url \x7d\x7d/w",
       "        name: POST /w",
       "        meta:",
       "          id: req_aa4e55f914ec2032c82984d0afd7bed4",
       "          created: 1749660554120",
       "          modified: 1749660554120",
       "          isPrivate: false",
       "          sortKey: 0",
       "        method: POST",
       "        body:",
       "          mimeType: application/json",
       "          text: |-",
       "            \"string\"",
       "        headers:",
       "          - name: Content-Type",
       "            disabled: false",
       "            value: application/json",
       "        parameters:",
       "          - name: q",
       "            disabled: true",
       "            value: \"\"",
       "          - name: Authorization",
       "            disabled: false",
       "            value: >-",
       "              \x7b\x7b _.api_key \x7d\x7d",
       "        settings:",
       "          renderRequestBody: true",
       "          encodeUrl: true",
       "          followRedirects: global",
       "          cookies:",
       "            send: true",
       "            store: true",
       "          rebuildPath: true"] := rfl

/-! ## C10 -/

/-- Document with one operation carrying two tags. -/
def twoTagDoc : Json := .obj [
  ("paths", .obj [("/x", .obj [("get", .obj [
    ("tags", .arr [.str "alpha", .str "beta"]),
    ("responses", .obj [])])])])]

set_option maxRecDepth 8000 in
/-- C10: request identifiers are tag-independent.  Every successfully
emitted fragment contains the meta id line built from
`md5_id "req" "{method}:{path}"` alone — the expression mentions neither
the operation object nor the sort key — and on a document whose single
operation carries two tags the full output contains that identical id
line twice (one fragment per folder), so emitted node ids are not unique
across the document (the document's text is the newline-join of exactly
these lines). -/
theorem C10_request_id_tag_independent :
    (∀ (spec : Json) (path method : String) (op : Json) (k : Int) (ls : List String),
      generate_request_yaml_lines spec path method op k = .ok ls →
      ("          id: " ++ md5_id "req" (method ++ ":" ++ path)) ∈ ls) ∧
    (generate_collection_lines twoTagDoc).map
      (fun ls => ls.count ("          id: " ++ md5_id "req" "get:/x")) =
      .ok 2 := by
  constructor
  · intro spec path method op k ls h
    unfold generate_request_yaml_lines at h
    obtain ⟨params, h1, h⟩ := except_bind_eq_ok h
    obtain ⟨url, h2, h⟩ := except_bind_eq_ok h
    obtain ⟨summary, h3, h⟩ := except_bind_eq_ok h
    obtain ⟨description, h4, h⟩ := except_bind_eq_ok h
    obtain ⟨ps, h5, h⟩ := except_bind_eq_ok h
    obtain ⟨dsc, h6, h⟩ := except_bind_eq_ok h
    obtain ⟨bdy, h7, h⟩ := except_bind_eq_ok h
    obtain ⟨qry, h8, h⟩ := except_bind_eq_ok h
    obtain ⟨auth, h9, h⟩ := except_bind_eq_ok h
    simp only [pure, Except.pure, Except.ok.injEq] at h
    subst h
    simp [requestHead]
  · rfl

/-- Operation and fragment lines for the C10 witness. -/
def plainGetOp : Json := .obj [("responses", .obj [])]

/-- Fragment lines emitted for `plainGetOp` at `GET /x`. -/
def plainGetLines : List String :=
  ["      - url: >-",
   "            \x7b\x7b _.base_url \x7d\x7d/x",
   "        name: GET /x",
   "        meta:",
   "          id: req_65a429c053760b50a097938af74e4771",
   "          created: 1749660554120",
   "          modified: 1749660554120",
   "          isPrivate: false",
   "          sortKey: 0",
   "        method: GET",
   "        settings:",
   "          renderRequestBody: true",
   "          encodeUrl: true",
   "          followRedirects: global",
   "          cookies:",
   "            send: true",
   "            store: true",
   "          rebuildPath: true"]

set_option maxRecDepth 8000 in
/-- Witness for C10 at a concrete fragment. -/
theorem C10_request_id_tag_independent_witness :
    generate_request_yaml_lines (.obj []) "/x" "get" plainGetOp 0 = .ok plainGetLines ∧
      ("          id: " ++ md5_id "req" ("get" ++ ":" ++ "/x")) ∈ plainGetLines :=
  ⟨rfl, C10_request_id_tag_independent.1 (.obj []) "/x" "get" plainGetOp 0 plainGetLines rfl⟩

/-! ## C9 -/

/-- Document whose operation summary contains a YAML-significant colon. -/
def colonSummaryDoc : Json := .obj [
  ("paths", .obj [("/a", .obj [("get", .obj [
    ("summary", .str "Fetch: things"),
    ("responses", .obj [])])])])]

set_option maxRecDepth 8000 in
/-- Counterexample to C9: the emitted document contains the summary
string `Fetch: things` — which contains a YAML-significant character —
as a raw unquoted scalar on the request name line, while the quoting rule
(as implemented by `yaml_escape`) would demand the double-quoted form.
Only single-line descriptions pass through `yaml_escape`. -/
theorem C9_quoting_counterexample :
    (generate_collection_lines colonSummaryDoc).map
        (fun ls => ls.contains "        name: Fetch: things") = .ok true ∧
      yaml_escape "Fetch: things" = "\"Fetch: things\"" :=
  ⟨rfl, rfl⟩

/-! ## C2, amended part: totality on well-formed schema trees -/

mutual

/-- A schema value every node of which is an object whose `$ref` (if any)
is a string, `enum` (if any) a nonempty array, `items` (if any) again such
a node, and `properties` (if any) an object of such nodes.  These are
exactly the shapes at which no dynamic failure of the source can fire. -/
def benign : Json → Bool
  | .obj fs => benignFields fs
  | _ => false

def benignFields : List (String × Json) → Bool
  | [] => true
  | (k, v) :: rest =>
    ((if k == "$ref" then v.isString else true) &&
     (if k == "enum" then (match v with | .arr (_ :: _) => true | _ => false) else true) &&
     (if k == "items" then benign v else true) &&
     (if k == "properties" then
        (match v with | .obj ps => benignProps ps | _ => false) else true)) &&
    benignFields rest

def benignProps : List (String × Json) → Bool
  | [] => true
  | (_, v) :: rest => benign v && benignProps rest

end

/-- The per-field well-formedness checks of `benignFields`. -/
def benignEntry (k : String) (v : Json) : Bool :=
  (if k == "$ref" then v.isString else true) &&
  (if k == "enum" then (match v with | .arr (_ :: _) => true | _ => false) else true) &&
  (if k == "items" then benign v else true) &&
  (if k == "properties" then (match v with | .obj ps => benignProps ps | _ => false) else true)

theorem benignFields_cons (kv : String × Json) (rest : List (String × Json)) :
    benignFields (kv :: rest) = (benignEntry kv.1 kv.2 && benignFields rest) := by
  obtain ⟨k, v⟩ := kv
  cases v with
  | null => rfl
  | bool b => rfl
  | num m => rfl
  | str s => rfl
  | arr l => cases l <;> rfl
  | obj l => rfl

theorem benignProps_cons (kv : String × Json) (rest : List (String × Json)) :
    benignProps (kv :: rest) = (benign kv.2 && benignProps rest) := by
  cases kv
  rfl

/-- A document whose `definitions` table (when present) is an object all
of whose values are benign schemas. -/
def specBenign : Json → Bool
  | .obj sfs =>
    (match Json.lookup sfs "definitions" with
     | some (.obj ds) => benignProps ds
     | some _ => false
     | none => true)
  | _ => false

theorem lookup_of_hasKey {fs : List (String × Json)} {k : String}
    (h : Json.hasKey fs k = true) : ∃ v, Json.lookup fs k = some v := by
  induction fs with
  | nil => simp [Json.hasKey] at h
  | cons kv rest ih =>
    by_cases he : (kv.1 == k) = true
    · refine ⟨kv.2, ?_⟩
      unfold Json.lookup
      rw [@List.find?_cons_of_pos _ (fun kv => kv.1 == k) kv rest he]
      rfl
    · have h2 : Json.hasKey rest k = true := by
        unfold Json.hasKey at h
        rw [List.any_cons] at h
        rcases Bool.or_eq_true_iff.mp h with h' | h'
        · exact absurd h' he
        · exact h'
      obtain ⟨v, hv⟩ := ih h2
      refine ⟨v, ?_⟩
      unfold Json.lookup at hv ⊢
      rw [@List.find?_cons_of_neg _ (fun kv => kv.1 == k) kv rest he]
      exact hv

theorem benignFields_lookup {fs : List (String × Json)} {k : String} {v : Json}
    (hb : benignFields fs = true) (hl : Json.lookup fs k = some v) :
    benignEntry k v = true := by
  induction fs with
  | nil => simp [Json.lookup] at hl
  | cons kv rest ih =>
    have hb1 : benignEntry kv.1 kv.2 = true ∧ benignFields rest = true := by
      rw [benignFields_cons, Bool.and_eq_true] at hb
      exact hb
    by_cases he : (kv.1 == k) = true
    · have hk : kv.1 = k := by simpa using he
      have hv : v = kv.2 := by
        unfold Json.lookup at hl
        rw [@List.find?_cons_of_pos _ (fun kv => kv.1 == k) kv rest he] at hl
        simpa using hl.symm
      rw [hv, ← hk]
      exact hb1.1
    · have hl2 : Json.lookup rest k = some v := by
        unfold Json.lookup at hl ⊢
        rw [@List.find?_cons_of_neg _ (fun kv => kv.1 == k) kv rest he] at hl
        exact hl
      exact ih hb1.2 hl2

theorem benignProps_lookup {ps : List (String × Json)} {k : String} {v : Json}
    (hb : benignProps ps = true) (hl : Json.lookup ps k = some v) :
    benign v = true := by
  induction ps with
  | nil => simp [Json.lookup] at hl
  | cons kv rest ih =>
    have hb1 : benign kv.2 = true ∧ benignProps rest = true := by
      rw [benignProps_cons, Bool.and_eq_true] at hb
      exact hb
    by_cases he : (kv.1 == k) = true
    · have hv : v = kv.2 := by
        unfold Json.lookup at hl
        rw [@List.find?_cons_of_pos _ (fun kv => kv.1 == k) kv rest he] at hl
        simpa using hl.symm
      rw [hv]; exact hb1.1
    · have hl2 : Json.lookup rest k = some v := by
        unfold Json.lookup at hl ⊢
        rw [@List.find?_cons_of_neg _ (fun kv => kv.1 == k) kv rest he] at hl
        exact hl
      exact ih hb1.2 hl2

theorem benignProps_mem {ps : List (String × Json)} {kv : String × Json}
    (hb : benignProps ps = true) (hm : kv ∈ ps) : benign kv.2 = true := by
  induction ps with
  | nil => simp at hm
  | cons a rest ih =>
    have hb1 : benign a.2 = true ∧ benignProps rest = true := by
      rw [benignProps_cons, Bool.and_eq_true] at hb
      exact hb
    rcases List.mem_cons.mp hm with h | h
    · rw [h]; exact hb1.1
    · exact ih hb1.2 h

theorem except_bind_isOk {α β : Type} {e : Except String α} {g : α → β} :
    (e >>= fun v => pure (g v) : Except String β).isOk = e.isOk := by
  cases e <;> rfl

theorem list_mapM_isOk {α β : Type} (f : α → Except String β) :
    ∀ l : List α, (∀ a ∈ l, (f a).isOk = true) → (l.mapM f).isOk = true := by
  intro l
  induction l with
  | nil => intro _; rfl
  | cons a l ih =>
    intro h
    rw [List.mapM_cons]
    have ha := h a (by simp)
    cases hfa : f a with
    | error e => rw [hfa] at ha; simp [Except.isOk, Except.toBool] at ha
    | ok b =>
      have hrest := ih (fun x hx => h x (by simp [hx]))
      cases hm : l.mapM f with
      | error e => rw [hm] at hrest; simp [Except.isOk, Except.toBool] at hrest
      | ok bs => simp [hfa, hm, except_bind_ok, Except.isOk, Except.toBool]

theorem sampleFuel_benign : ∀ (n : Nat) (spec schema : Json),
    specBenign spec = true → benign schema = true →
    (sampleFuel spec n schema).isOk = true := by
  intro n
  induction n with
  | zero => intro spec schema _ _; rfl
  | succ n ih =>
    intro spec schema hs hb
    obtain ⟨fs, rfl⟩ : ∃ fs, schema = .obj fs := by
      cases schema with
      | obj fs => exact ⟨fs, rfl⟩
      | null => simp [benign] at hb
      | bool b => simp [benign] at hb
      | num m => simp [benign] at hb
      | str s => simp [benign] at hb
      | arr l => simp [benign] at hb
    have hbf : benignFields fs = true := by simpa [benign] using hb
    obtain ⟨sfs, rfl⟩ : ∃ sfs, spec = .obj sfs := by
      cases spec with
      | obj sfs => exact ⟨sfs, rfl⟩
      | null => simp [specBenign] at hs
      | bool b => simp [specBenign] at hs
      | num m => simp [specBenign] at hs
      | str s => simp [specBenign] at hs
      | arr l => simp [specBenign] at hs
    simp only [sampleFuel, pyContains, except_bind_ok]
    by_cases href : Json.hasKey fs "$ref" = true
    · simp only [href, if_true]
      obtain ⟨rv, hrv⟩ := lookup_of_hasKey href
      have hent := benignFields_lookup hbf hrv
      obtain ⟨rs, rfl⟩ : ∃ rs, rv = .str rs := by
        cases rv with
        | str s => exact ⟨s, rfl⟩
        | null => simp [benignEntry, Json.isString] at hent
        | bool b => simp [benignEntry, Json.isString] at hent
        | num m => simp [benignEntry, Json.isString] at hent
        | arr l => simp [benignEntry, Json.isString] at hent
        | obj l => simp [benignEntry, Json.isString] at hent
      simp only [pyGetItem, hrv, except_bind_ok, resolve_ref]
      by_cases hsw : strStarts rs "#/definitions/" = true
      · simp only [hsw, if_true, pyDictGet, except_bind_ok]
        cases hdef : Json.lookup sfs "definitions" with
        | none => simp [hdef, Json.lookup]
        | some dv =>
          obtain ⟨ds, rfl, hdp⟩ : ∃ ds, dv = .obj ds ∧ benignProps ds = true := by
            rw [specBenign, hdef] at hs
            cases dv with
            | obj ds => exact ⟨ds, rfl, hs⟩
            | null => simp at hs
            | bool b => simp at hs
            | num m => simp at hs
            | str s => simp at hs
            | arr l => simp at hs
          simp only [hdef, Option.getD]
          cases hlk : Json.lookup ds (strDrop rs 14) with
          | none => simp [hlk]
          | some defv =>
            have hbd := benignProps_lookup hdp hlk
            by_cases ht : truthy defv = true
            · simpa [hlk, ht] using ih (.obj sfs) defv hs hbd
            · simp [hlk, ht]
      · simp [hsw]
    · simp only [href, Bool.false_eq_true, if_false, pyDictGet, except_bind_ok]
      by_cases h1 : pyEq ((Json.lookup fs "type").getD (.str "object")) (.str "string") = true
      · simp only [h1, if_true, pyContains, except_bind_ok]
        by_cases henum : Json.hasKey fs "enum" = true
        · simp only [henum, if_true]
          obtain ⟨ev, hev⟩ := lookup_of_hasKey henum
          have hent := benignFields_lookup hbf hev
          obtain ⟨e0, erest, rfl⟩ : ∃ e0 erest, ev = .arr (e0 :: erest) := by
            cases ev with
            | arr l =>
              cases l with
              | nil => simp [benignEntry] at hent
              | cons e0 erest => exact ⟨e0, erest, rfl⟩
            | null => simp [benignEntry] at hent
            | bool b => simp [benignEntry] at hent
            | num m => simp [benignEntry] at hent
            | str s => simp [benignEntry] at hent
            | obj l => simp [benignEntry] at hent
          simp [pyGetItem, hev, pyIndex0]
        · simp [henum]
      · simp only [h1, Bool.false_eq_true, if_false]
        by_cases h2 : pyEq ((Json.lookup fs "type").getD (.str "object")) (.str "integer") = true
        · simp [h2]
        · simp only [h2, Bool.false_eq_true, if_false]
          by_cases h3 : pyEq ((Json.lookup fs "type").getD (.str "object")) (.str "number") = true
          · simp [h3]
          · simp only [h3, Bool.false_eq_true, if_false]
            by_cases h4 : pyEq ((Json.lookup fs "type").getD (.str "object")) (.str "boolean") = true
            · simp [h4]
            · simp only [h4, Bool.false_eq_true, if_false]
              by_cases h5 : pyEq ((Json.lookup fs "type").getD (.str "object")) (.str "array") = true
              · simp only [h5, if_true, pyDictGet, except_bind_ok]
                cases hit : Json.lookup fs "items" with
                | none =>
                  simp only [hit, Option.getD]
                  rw [except_bind_isOk]
                  exact ih (.obj sfs) (.obj []) hs rfl
                | some iv =>
                  have hent := benignFields_lookup hbf hit
                  have hbi : benign iv = true := by
                    simpa [benignEntry] using hent
                  simp only [hit, Option.getD]
                  rw [except_bind_isOk]
                  exact ih (.obj sfs) iv hs hbi
              · simp only [h5, Bool.false_eq_true, if_false, pyContains, except_bind_ok]
                by_cases h6 : (pyEq ((Json.lookup fs "type").getD (.str "object")) (.str "object") ||
                    Json.hasKey fs "properties") = true
                · simp only [h6, if_true, pyDictGet, except_bind_ok]
                  cases hpr : Json.lookup fs "properties" with
                  | none =>
                    simp only [hpr, Option.getD]
                    by_cases haddl : Json.hasKey fs "additionalProperties" = true
                    · simp [haddl, truthy]
                    · simp [haddl, truthy, List.mapM.loop]
                  | some pv =>
                    have hent := benignFields_lookup hbf hpr
                    obtain ⟨ps, rfl, hps⟩ : ∃ ps, pv = .obj ps ∧ benignProps ps = true := by
                      cases pv with
                      | obj ps =>
                        refine ⟨ps, rfl, ?_⟩
                        simpa [benignEntry] using hent
                      | null => simp [benignEntry] at hent
                      | bool b => simp [benignEntry] at hent
                      | num m => simp [benignEntry] at hent
                      | str s => simp [benignEntry] at hent
                      | arr l => simp [benignEntry] at hent
                    simp only [hpr, Option.getD]
                    by_cases hcond : (!truthy (.obj ps) && Json.hasKey fs "additionalProperties") = true
                    · simp [hcond]
                    · simp only [hcond, Bool.false_eq_true, if_false]
                      rw [except_bind_isOk]
                      refine list_mapM_isOk _ ps (fun kv hkv => ?_)
                      have hbkv := benignProps_mem hps hkv
                      rw [except_bind_isOk]
                      exact ih (.obj sfs) kv.2 hs hbkv
                · simp [h6]

/-- C2, amended: synthesis is total on well-formed schema trees — for
every schema whose nodes are benign (objects with string `$ref`s, nonempty
array `enum`s, object `properties` of benign nodes) over a document whose
definitions are benign, `generate_sample_json` returns a value at every
depth; outside this (e.g. an empty `enum`) an exception can propagate. -/
theorem C2_totality_amended (spec schema : Json) (depth : Nat)
    (hs : specBenign spec = true) (hb : benign schema = true) :
    (generate_sample_json spec schema depth).isOk = true := by
  unfold generate_sample_json
  exact sampleFuel_benign (5 - depth) spec schema hs hb

/-- Witness for the amended C2 on the example document and a reference
schema. -/
theorem C2_totality_amended_witness :
    specBenign exampleDoc = true ∧ benign (refTo "v1.Thing") = true ∧
      (generate_sample_json exampleDoc (refTo "v1.Thing") 0).isOk = true :=
  ⟨rfl, rfl, C2_totality_amended exampleDoc (refTo "v1.Thing") 0 rfl rfl⟩

/-- C9, amended: the quoting rule is exactly what `yaml_escape`
implements — a nonempty string containing a YAML-significant character
(the code's set also includes the newline) or starting with dash-space is
double-quoted with backslashes and double quotes escaped, and any other
nonempty string is returned unchanged — but the generator applies it only
to single-line description values; every other emitted string value
(names, mime types, tags, urls, query values) is written raw. -/
theorem C9_quoting_amended :
    (∀ s : String, s ≠ "" →
      (((∃ c ∈ s.data, c ∈ (":\x7b\x7d[]&*?|>!%@\x60#,\n").data) ∨ strStarts s "- " = true) →
        yaml_escape s = "\"" ++ strReplace (strReplace s "\\" "\\\\") "\"" "\\\"" ++ "\"") ∧
      ((∀ c ∈ s.data, c ∉ (":\x7b\x7d[]&*?|>!%@\x60#,\n").data) ∧ strStarts s "- " = false →
        yaml_escape s = s)) ∧
    (∀ (spec : Json) (path method : String) (op : Json) (k : Int) (ls : List String)
        (d e : String),
      generate_request_yaml_lines spec path method op k = .ok ls →
      pyDictGet op "description" (.str "") = .ok (.str d) →
      d ≠ "" →
      strSplitOn (pyStrip d) "\n" = [e] →
      ("          description: " ++ yaml_escape e) ∈ ls) := by
  constructor
  · intro s hs
    have hsE : s.isEmpty = false := by
      cases he : s.isEmpty
      · rfl
      · exact absurd ((String.isEmpty_iff _).mp he) hs
    constructor
    · intro hcond
      have hq : ((":\x7b\x7d[]&*?|>!%@\x60#,\n").data.any (fun c => strContainsChar s c) ||
          strStarts s "- ") = true := by
        rcases hcond with ⟨c, hcs, hcl⟩ | hst
        · apply Bool.or_eq_true_iff.mpr
          left
          exact List.any_eq_true.mpr ⟨c, hcl, List.any_eq_true.mpr ⟨c, hcs, by simp⟩⟩
        · simp [hst]
      simp only [yaml_escape, hsE, Bool.false_eq_true, if_false, hq, if_true]
    · intro hcond
      have hq : ((":\x7b\x7d[]&*?|>!%@\x60#,\n").data.any (fun c => strContainsChar s c) ||
          strStarts s "- ") = false := by
        apply Bool.or_eq_false_iff.mpr
        refine ⟨?_, hcond.2⟩
        apply List.any_eq_false.mpr
        intro c hcl
        show ¬ s.data.any (fun x => x == c) = true
        rw [Bool.not_eq_true]
        apply List.any_eq_false.mpr
        intro x hxs
        intro hxc
        have hxc2 : x = c := by simpa using hxc
        exact hcond.1 x hxs (hxc2 ▸ hcl)
      simp only [yaml_escape, hsE, Bool.false_eq_true, if_false, hq, if_true]
  · intro spec path method op k ls d e h hdesc hd hsplit
    unfold generate_request_yaml_lines at h
    obtain ⟨params, h1, h⟩ := except_bind_eq_ok h
    obtain ⟨url, h2, h⟩ := except_bind_eq_ok h
    obtain ⟨summary, h3, h⟩ := except_bind_eq_ok h
    obtain ⟨description, h4, h⟩ := except_bind_eq_ok h
    obtain ⟨ps, h5, h⟩ := except_bind_eq_ok h
    obtain ⟨dsc, h6, h⟩ := except_bind_eq_ok h
    obtain ⟨bdy, h7, h⟩ := except_bind_eq_ok h
    obtain ⟨qry, h8, h⟩ := except_bind_eq_ok h
    obtain ⟨auth, h9, h⟩ := except_bind_eq_ok h
    simp only [pure, Except.pure, Except.ok.injEq] at h
    subst h
    have hde : description = .str d := by
      rw [h4] at hdesc
      exact (Except.ok.injEq _ _).mp hdesc
    subst hde
    have htr : truthy (.str d) = true := by
      simp only [truthy, Bool.not_eq_true']
      cases he : String.isEmpty d
      · rfl
      · exact absurd ((String.isEmpty_iff _).mp he) hd
    rw [descLines, htr, if_pos rfl, hsplit] at h6
    have hdsc : dsc = ["          description: " ++ yaml_escape e] := by
      have := h6.symm
      simp only [pure, Except.pure, Except.ok.injEq] at this
      exact this
    subst hdsc
    simp

/-- Witness for the amended C9 at a concrete string with a colon. -/
theorem C9_quoting_amended_witness :
    yaml_escape "a: b" =
      "\"" ++ strReplace (strReplace "a: b" "\\" "\\\\") "\"" "\\\"" ++ "\"" :=
  (C9_quoting_amended.1 "a: b" (by decide)).1 (Or.inl ⟨':', by decide, by decide⟩)

/-! ## C7 -/

theorem ne_of_append_get {p q : String} (x : String) (i : Nat)
    (h1 : i < p.data.length) (h2 : p.data[i]? ≠ q.data[i]?) : p ++ x ≠ q := by
  intro he
  apply h2
  have hd : p.data ++ x.data = q.data := by
    simpa [String.data_append] using congrArg String.data he
  rw [← hd]
  exact (List.getElem?_append_left h1).symm

theorem lookup_eq_none_of_hasKey_false {fs : List (String × Json)} {k : String}
    (h : Json.hasKey fs k = false) : Json.lookup fs k = none := by
  induction fs with
  | nil => rfl
  | cons kv rest ih =>
    unfold Json.hasKey at h
    rw [List.any_cons, Bool.or_eq_false_iff] at h
    unfold Json.lookup
    rw [@List.find?_cons_of_neg _ (fun kv => kv.1 == k) kv rest (by simp [h.1])]
    exact ih h.2

theorem findBody_shape : ∀ {ps : List Json} {p : Json},
    findBody ps = .ok p → p = .null ∨ ∃ pf, p = .obj pf ∧ truthy p = true := by
  intro ps
  induction ps with
  | nil =>
    intro p h
    left
    simp only [findBody, pure, Except.pure, Except.ok.injEq] at h
    exact h.symm
  | cons q rest ih =>
    intro p h
    unfold findBody at h
    obtain ⟨loc, hloc, h⟩ := except_bind_eq_ok h
    cases q with
    | obj qf =>
      by_cases he : pyEq loc (.str "body") = true
      · rw [if_pos he] at h
        have hp : p = Json.obj qf := by
          simp only [pure, Except.pure, Except.ok.injEq] at h
          exact h.symm
        subst hp
        right
        refine ⟨qf, rfl, ?_⟩
        cases qf with
        | nil =>
          exfalso
          have : loc = Json.null := by simpa [pyDictGet, Json.lookup] using hloc.symm
          subst this
          simp [pyEq] at he
        | cons a l => simp [truthy]
      · rw [if_neg he] at h
        exact ih h
    | null => simp [pyDictGet] at hloc
    | bool b => simp [pyDictGet] at hloc
    | num m => simp [pyDictGet] at hloc
    | str s => simp [pyDictGet] at hloc
    | arr l => simp [pyDictGet] at hloc

theorem list_mapM_ok_mem {α β : Type} {f : α → Except String β} :
    ∀ {l : List α} {bs : List β}, l.mapM f = .ok bs → ∀ b ∈ bs, ∃ a ∈ l, f a = .ok b := by
  intro l
  induction l with
  | nil =>
    intro bs h b hb
    rw [List.mapM_nil] at h
    simp only [pure, Except.pure, Except.ok.injEq] at h
    subst h
    simp at hb
  | cons a l ih =>
    intro bs h b hb
    rw [List.mapM_cons] at h
    obtain ⟨b0, hb0, h⟩ := except_bind_eq_ok h
    obtain ⟨bs0, hbs0, h⟩ := except_bind_eq_ok h
    simp only [pure, Except.pure, Except.ok.injEq] at h
    subst h
    rcases List.mem_cons.mp hb with rfl | hmem
    · exact ⟨a, by simp, hb0⟩
    · obtain ⟨a2, ha2, hfa2⟩ := ih hbs0 b hmem
      exact ⟨a2, by simp [ha2], hfa2⟩

theorem body_notin_requestHead (url rid : String) (sm : Json) :
    "        body:" ∉ requestHead url rid sm := by
  intro hmem
  simp only [requestHead, List.mem_cons, List.not_mem_nil, or_false] at hmem
  rcases hmem with h|h|h|h|h|h|h|h
  · exact absurd h (by decide)
  · exact ne_of_append_get _ 8 (by decide) (by decide) h.symm
  · exact ne_of_append_get _ 8 (by decide) (by decide) h.symm
  · exact absurd h (by decide)
  · exact ne_of_append_get _ 8 (by decide) (by decide) h.symm
  · exact absurd h (by decide)
  · exact absurd h (by decide)
  · exact absurd h (by decide)

theorem body_notin_descLines {d : Json} {dsc : List String}
    (h : descLines d = .ok dsc) : "        body:" ∉ dsc := by
  unfold descLines at h
  split at h
  · split at h
    · split at h
      · simp only [pure, Except.pure, Except.ok.injEq] at h
        subst h
        intro hmem
        rcases List.mem_singleton.mp hmem with h
        exact ne_of_append_get _ 8 (by decide) (by decide) h.symm
      · simp only [pure, Except.pure, Except.ok.injEq] at h
        subst h
        intro hmem
        rcases List.mem_cons.mp hmem with h | h
        · exact absurd h (by decide)
        · obtain ⟨dl, _, heq⟩ := List.mem_map.mp h
          exact ne_of_append_get _ 8 (by decide) (by decide) heq
    · exact absurd h (by simp)
  · simp only [pure, Except.pure, Except.ok.injEq] at h
    subst h
    simp

theorem strAppend_assoc (a b c : String) : a ++ b ++ c = a ++ (b ++ c) := by
  apply String.ext
  simp [String.data_append, List.append_assoc]

theorem body_notin_queryParamLines {qp : Json} {ql : List String}
    (h : queryParamLines qp = .ok ql) : "        body:" ∉ ql := by
  unfold queryParamLines at h
  obtain ⟨ex, he, h⟩ := except_bind_eq_ok h
  obtain ⟨nm, hn, h⟩ := except_bind_eq_ok h
  simp only [pure, Except.pure, Except.ok.injEq] at h
  subst h
  intro hmem
  rcases List.mem_cons.mp hmem with h | hmem
  · exact ne_of_append_get _ 8 (by decide) (by decide) h.symm
  rcases List.mem_cons.mp hmem with h | hmem
  · exact absurd h (by decide)
  rcases List.mem_cons.mp hmem with h | hmem
  · refine absurd ?_
      (@ne_of_append_get "            value: \"" "        body:" (pyStr ex ++ "\"") 8
        (by decide) (by decide))
    rw [← strAppend_assoc]
    exact h.symm
  · simp at hmem

theorem body_notin_querySeg {ps : List Json} {q : List String}
    (h : querySeg ps = .ok q) : "        body:" ∉ q := by
  unfold querySeg at h
  obtain ⟨qps, hq, h⟩ := except_bind_eq_ok h
  split at h
  · simp only [pure, Except.pure, Except.ok.injEq] at h
    subst h
    simp
  · obtain ⟨items, hi, h⟩ := except_bind_eq_ok h
    simp only [pure, Except.pure, Except.ok.injEq] at h
    subst h
    intro hmem
    rcases List.mem_cons.mp hmem with h | hmem
    · exact absurd h (by decide)
    · obtain ⟨l, hl, hml⟩ := List.mem_flatten.mp hmem
      obtain ⟨qp, _, hqp⟩ := list_mapM_ok_mem hi l hl
      exact body_notin_queryParamLines hqp hml

theorem body_notin_authSeg {m : String} {op : Json} {ps : List Json} {a : List String}
    (h : authSeg m op ps = .ok a) : "        body:" ∉ a := by
  unfold authSeg at h
  obtain ⟨sec, hsec, h⟩ := except_bind_eq_ok h
  by_cases ht : truthy sec = true
  · rw [if_pos ht] at h
    split at h
    · obtain ⟨bp, hbp, h⟩ := except_bind_eq_ok h
      simp only [except_ok_bind, except_pure_bind, pure, Except.pure, Except.ok.injEq] at h
      subst h
      cases bp <;> simp
    · simp only [except_ok_bind, pure, Except.pure, Except.ok.injEq] at h
      subst h
      decide
  · rw [if_neg ht] at h
    simp only [pure, Except.pure, Except.ok.injEq] at h
    subst h
    simp

theorem body_mem_iff_seg {url rid : String} {sm : Json} {dsc bdy qry auth : List String}
    {k : Int} {method : String}
    (hd : "        body:" ∉ dsc) (hq : "        body:" ∉ qry)
    (ha : "        body:" ∉ auth) :
    ("        body:" ∈ requestHead url rid sm ++ dsc ++
        ["          sortKey: " ++ toString k, "        method: " ++ strUpper method] ++
        bdy ++ qry ++ auth ++ settingsSeg) ↔ "        body:" ∈ bdy := by
  simp only [List.mem_append]
  constructor
  · intro hmem
    rcases hmem with ((((((h|h)|h)|h)|h)|h)|h)
    · exact absurd h (body_notin_requestHead url rid sm)
    · exact absurd h hd
    · rcases List.mem_cons.mp h with h | h
      · exact absurd h.symm (ne_of_append_get _ 8 (by decide) (by decide))
      rcases List.mem_cons.mp h with h | h
      · exact absurd h.symm (ne_of_append_get _ 8 (by decide) (by decide))
      · simp at h
    · exact h
    · exact absurd h hq
    · exact absurd h ha
    · exact absurd h (by decide : "        body:" ∉ settingsSeg)
  · intro h
    exact Or.inl (Or.inl (Or.inl (Or.inr h)))

/-- C7, amended: a request fragment contains a body section exactly when
the upper-cased method is POST, PUT or PATCH and the FIRST body-kind
parameter carries a `schema` key (a later body parameter with a schema
does not count); in that case the fragment embeds the body block — the
mime type from the first `consumes` entry (JSON default when absent or
falsy), the text equal to `json.dumps(sample, indent=2)` of the
synthesized sample, and the Content-Type header opening a headers list. -/
theorem C7_body_emission :
    ∀ (spec : Json) (path method : String) (op : Json) (k : Int) (ls : List String),
      generate_request_yaml_lines spec path method op k = .ok ls →
      (("        body:" ∈ ls) ↔
        (methodsWithBody.contains (strUpper method) = true ∧
          ∃ pf, firstBodyParam op = .ok (.obj pf) ∧
            Json.hasKey pf "schema" = true)) ∧
      (∀ pf sch sample mime,
        methodsWithBody.contains (strUpper method) = true →
        firstBodyParam op = .ok (.obj pf) →
        Json.lookup pf "schema" = some sch →
        generate_sample_json spec sch 0 = .ok sample →
        opMime op = .ok mime →
        ∃ pre post, ls = pre ++ bodyBlock mime (jsonDumps 0 sample) ++ post) := by
  intro spec path method op k ls h
  unfold generate_request_yaml_lines at h
  obtain ⟨params, h1, h⟩ := except_bind_eq_ok h
  obtain ⟨url, h2, h⟩ := except_bind_eq_ok h
  obtain ⟨summary, h3, h⟩ := except_bind_eq_ok h
  obtain ⟨description, h4, h⟩ := except_bind_eq_ok h
  obtain ⟨ps, h5, h⟩ := except_bind_eq_ok h
  obtain ⟨dsc, h6, h⟩ := except_bind_eq_ok h
  obtain ⟨bdy, h7, h⟩ := except_bind_eq_ok h
  obtain ⟨qry, h8, h⟩ := except_bind_eq_ok h
  obtain ⟨auth, h9, h⟩ := except_bind_eq_ok h
  simp only [pure, Except.pure, Except.ok.injEq] at h
  subst h
  have hfb_eq : firstBodyParam op = findBody ps := by
    unfold firstBodyParam
    rw [h1, except_ok_bind, h5, except_ok_bind]
  have hmem_iff := @body_mem_iff_seg url (md5_id "req" (method ++ ":" ++ path)) summary
    dsc bdy qry auth k method (body_notin_descLines h6)
    (body_notin_querySeg h8) (body_notin_authSeg h9)
  unfold bodySeg at h7
  by_cases hm : methodsWithBody.contains (strUpper method) = true
  · rw [if_pos hm] at h7
    obtain ⟨bp, hbp, h7⟩ := except_bind_eq_ok h7
    rcases findBody_shape hbp with rfl | ⟨pf0, rfl, htr⟩
    · rw [if_neg (by simp [truthy])] at h7
      simp only [pure, Except.pure, Except.ok.injEq] at h7
      subst h7
      constructor
      · rw [hmem_iff]
        constructor
        · intro hmem
          simp at hmem
        · rintro ⟨-, pf, hpf, -⟩
          rw [hfb_eq, hbp] at hpf
          exact absurd hpf (by simp)
      · intro pf sch sample mime hmc hfbp hlk hgs hom
        rw [hfb_eq, hbp] at hfbp
        exact absurd hfbp (by simp)
    · rw [if_pos htr] at h7
      rw [show pyContains (Json.obj pf0) "schema" =
        Except.ok (Json.hasKey pf0 "schema") from rfl, except_ok_bind] at h7
      by_cases hsch : Json.hasKey pf0 "schema" = true
      · rw [if_pos hsch] at h7
        obtain ⟨schv, hschv⟩ := lookup_of_hasKey hsch
        obtain ⟨sch0, hsch0, h7⟩ := except_bind_eq_ok h7
        have hsch0v : sch0 = schv := by
          rw [show pyGetItem (Json.obj pf0) "schema" =
            (match Json.lookup pf0 "schema" with
             | some v => Except.ok v
             | none => Except.error "KeyError") from rfl, hschv] at hsch0
          simpa using hsch0.symm
        subst hsch0v
        obtain ⟨sample0, hsample0, h7⟩ := except_bind_eq_ok h7
        obtain ⟨mime0, hmime0, h7⟩ := except_bind_eq_ok h7
        simp only [pure, Except.pure, Except.ok.injEq] at h7
        subst h7
        constructor
        · rw [hmem_iff]
          constructor
          · intro _
            exact ⟨hm, pf0, by rw [hfb_eq, hbp], hsch⟩
          · intro _
            simp [bodyBlock]
        · intro pf sch sample mime hmc hfbp hlk hgs hom
          rw [hfb_eq, hbp] at hfbp
          have hpf : pf = pf0 := by simpa using hfbp.symm
          subst hpf
          have hsch2 : sch = sch0 := by rw [hlk] at hschv; simpa using hschv
          subst hsch2
          have hsample2 : sample = sample0 := by
            rw [hgs] at hsample0
            simpa using hsample0
          subst hsample2
          have hmime2 : mime = mime0 := by
            rw [hom] at hmime0
            simpa using hmime0
          subst hmime2
          refine ⟨requestHead url (md5_id "req" (method ++ ":" ++ path)) summary ++ dsc ++
            ["          sortKey: " ++ toString k, "        method: " ++ strUpper method],
            qry ++ auth ++ settingsSeg, ?_⟩
          simp [List.append_assoc]
      · rw [if_neg hsch] at h7
        simp only [pure, Except.pure, Except.ok.injEq] at h7
        subst h7
        constructor
        · rw [hmem_iff]
          constructor
          · intro hmem
            simp at hmem
          · rintro ⟨-, pf, hpf, hpfs⟩
            rw [hfb_eq, hbp] at hpf
            have : pf = pf0 := by simpa using hpf.symm
            subst this
            exact absurd hpfs hsch
        · intro pf sch sample mime hmc hfbp hlk hgs hom
          rw [hfb_eq, hbp] at hfbp
          have : pf = pf0 := by simpa using hfbp.symm
          subst this
          rw [lookup_eq_none_of_hasKey_false (by simpa using hsch)] at hlk
          exact absurd hlk (by simp)
  · rw [if_neg hm] at h7
    simp only [pure, Except.pure, Except.ok.injEq] at h7
    subst h7
    constructor
    · rw [hmem_iff]
      constructor
      · intro hmem
        simp at hmem
      · rintro ⟨hmc, -⟩
        exact absurd hmc hm
    · intro pf sch sample mime hmc hfbp hlk hgs hom
      exact absurd hmc hm

/-- Operation whose first body-kind parameter has no schema while a later
one does. -/
def twoBodyParamsOp : Json := .obj [
  ("responses", .obj []),
  ("parameters", .arr [
    .obj [("name", .str "b1"), ("in", .str "body")],
    .obj [("name", .str "b2"), ("in", .str "body"),
          ("schema", .obj [("type", .str "string")])]])]

/-- Counterexample to C7 as stated: for a POST operation that does contain
a body-kind parameter carrying a schema (the second one), no body section
is emitted, because the source inspects only the first body-kind
parameter, which lacks a schema. -/
theorem C7_body_emission_counterexample :
    (generate_request_yaml_lines (.obj []) "/p" "post" twoBodyParamsOp 0).map
        (fun ls => ls.contains "        body:") = .ok false ∧
      strUpper "post" ∈ methodsWithBody ∧
      opParams twoBodyParamsOp = .ok (.arr [
        .obj [("name", .str "b1"), ("in", .str "body")],
        .obj [("name", .str "b2"), ("in", .str "body"),
              ("schema", .obj [("type", .str "string")])]]) ∧
      pyDictGet (.obj [("name", .str "b2"), ("in", .str "body"),
        ("schema", .obj [("type", .str "string")])]) "in" .null = .ok (.str "body") ∧
      pyContains (.obj [("name", .str "b2"), ("in", .str "body"),
        ("schema", .obj [("type", .str "string")])]) "schema" = .ok true :=
  ⟨rfl, by decide, rfl, rfl, rfl⟩

/-- Operation for the C7 witness: a single schema-carrying body parameter. -/
def oneBodyParamOp : Json := .obj [("responses", .obj []),
  ("parameters", .arr [.obj [("name", .str "b2"), ("in", .str "body"),
    ("schema", .obj [("type", .str "string")])]])]

/-- Fragment lines emitted for `oneBodyParamOp` at `POST /p`. -/
def oneBodyParamLines : List String :=
  ["      - url: >-",
   "            \x7b\x7b _.base_url \x7d\x7d/p",
   "        name: POST /p",
   "        meta:",
   "          id: req_655ae205f950cc7f6001d80c78a1dd7c",
   "          created: 1749660554120",
   "          modified: 1749660554120",
   "          isPrivate: false",
   "          sortKey: 0",
   "        method: POST",
   "        body:",
   "          mimeType: application/json",
   "          text: |-",
   "            \"string\"",
   "        headers:",
   "          - name: Content-Type",
   "            disabled: false",
   "            value: application/json",
   "        settings:",
   "          renderRequestBody: true",
   "          encodeUrl: true",
   "          followRedirects: global",
   "          cookies:",
   "            send: true",
   "            store: true",
   "          rebuildPath: true"]

set_option maxRecDepth 8000 in
/-- Witness for the amended C7 at a concrete fragment. -/
theorem C7_body_emission_witness :
    generate_request_yaml_lines (.obj []) "/p" "post" oneBodyParamOp 0 =
        .ok oneBodyParamLines ∧
      (("        body:" ∈ oneBodyParamLines) ↔
        (methodsWithBody.contains (strUpper "post") = true ∧
          ∃ pf, firstBodyParam oneBodyParamOp = .ok (.obj pf) ∧
            Json.hasKey pf "schema" = true)) :=
  ⟨rfl, (C7_body_emission (.obj []) "/p" "post" oneBodyParamOp 0 oneBodyParamLines rfl).1⟩

/-! ## C5: grouping of operations into folders -/

/-- Total number of appearances of an endpoint triple across all folder
buckets, counting multiplicity. -/
def occCount (tm : TagsMap) (e : String × String × Json) : Nat :=
  (tm.map (fun kv => kv.2.countP (fun x => decide (x = e)))).sum

/-- The tags of the folders whose bucket contains the triple. -/
def foldersOf (tm : TagsMap) (e : String × String × Json) : List Json :=
  (tm.filter (fun kv => kv.2.any (fun x => decide (x = e)))).map (fun kv => kv.1)

theorem occCount_tagsAppend (tm : TagsMap) (t : Json) (e : String × String × Json) :
    occCount (tagsAppend tm t e) e = occCount tm e + 1 := by
  induction tm with
  | nil => simp [tagsAppend, occCount]
  | cons kv rest ih =>
    unfold tagsAppend
    by_cases h : pyEq t kv.1 = true
    · rw [if_pos h]
      simp [occCount, List.countP_append]
      omega
    · rw [if_neg h]
      simp only [occCount, List.map_cons, List.sum_cons] at *
      omega

theorem insertTags_cons (tm : TagsMap) (e : String × String × Json)
    (t : Json) (ts : List Json) :
    insertTags tm e (t :: ts) =
      (tagsInsert tm t e) >>= (fun tm2 => insertTags tm2 e ts) := rfl

theorem insertTags_occ (tl : List Json) :
    ∀ (tm : TagsMap) (e : String × String × Json),
      (∀ t ∈ tl, pyHashable t = true) →
      ∃ tm', insertTags tm e tl = .ok tm' ∧
        occCount tm' e = occCount tm e + tl.length := by
  induction tl with
  | nil => exact fun tm e _ => ⟨tm, rfl, by simp⟩
  | cons t ts ih =>
    intro tm e h
    have ht : pyHashable t = true := h t (by simp)
    have hrest : ∀ x ∈ ts, pyHashable x = true := fun x hx => h x (by simp [hx])
    obtain ⟨tm', h1, h2⟩ := ih (tagsAppend tm t e) e hrest
    refine ⟨tm', ?_, ?_⟩
    · rw [insertTags_cons,
        show tagsInsert tm t e = Except.ok (tagsAppend tm t e) from by
          unfold tagsInsert; rw [if_pos ht]; rfl,
        except_ok_bind]
      exact h1
    · rw [h2, occCount_tagsAppend]
      simp
      omega

/-- C5 counterexample: in the document `c5doc`, the valid `get` operation
carrying two tags is grouped into two folders and the valid `post`
operation with an empty tag list into none, so grouping is not a
partition assigning each valid operation to exactly one folder (the
invalid `put` operation without `responses` is, as claimed, excluded). -/
def c5opTwoTags : Json := .obj [
  ("tags", .arr [.str "a", .str "b"]),
  ("responses", .obj [])]

def c5opNoTags : Json := .obj [
  ("tags", .arr []),
  ("responses", .obj [])]

def c5opInvalid : Json := .obj [("tags", .arr [.str "a"])]

def c5doc : Json := .obj [
  ("paths", .obj [
    ("/x", .obj [
      ("get", c5opTwoTags),
      ("post", c5opNoTags),
      ("put", c5opInvalid)])])]

/-- C5: counterexample to "every valid operation is assigned to exactly
one folder": the two-tag operation lands in the folders of both its tags
and the zero-tag operation in no folder at all. -/
theorem C5_grouping_counterexample :
    (buildTags c5doc).map (fun tm =>
      (foldersOf tm ("/x", "get", c5opTwoTags),
       foldersOf tm ("/x", "post", c5opNoTags),
       foldersOf tm ("/x", "put", c5opInvalid))) =
      .ok ([.str "a", .str "b"], [], []) := rfl

/-- C5, amended: an operation entry that is not a dict with a `responses`
key is excluded entirely; a valid operation whose effective tag list
(the `tags` value, defaulting to `["other"]` when the key is absent) is
`tl` is appended to folder buckets once per entry of `tl` — so it lands
in one folder per distinct tag, not always exactly one — and a valid
operation without a `tags` key gets the single fallback tag `"other"`. -/
theorem C5_grouping_amended :
    (∀ (tm : TagsMap) (path method : String) (op : Json),
      validOp op = false → processOp tm path method op = .ok tm) ∧
    (∀ (tm : TagsMap) (path method : String) (op : Json) (tl : List Json),
      validOp op = true →
      (pyDictGet op "tags" (.arr [.str "other"]) >>= pyIter) = .ok tl →
      (∀ t ∈ tl, pyHashable t = true) →
      ∃ tm', processOp tm path method op = .ok tm' ∧
        occCount tm' (path, method, op) =
          occCount tm (path, method, op) + tl.length) ∧
    (∀ (fs : List (String × Json)),
      Json.hasKey fs "tags" = false →
      (pyDictGet (.obj fs) "tags" (.arr [.str "other"]) >>= pyIter) =
        .ok [.str "other"]) := by
  refine ⟨?_, ?_, ?_⟩
  · intro tm path method op hv
    simp only [processOp, hv, Bool.false_eq_true, if_false]
    rfl
  · intro tm path method op tl hv htl hh
    obtain ⟨tv, htv, hti⟩ := except_bind_eq_ok htl
    obtain ⟨tm', h1, h2⟩ := insertTags_occ tl tm (path, method, op) hh
    refine ⟨tm', ?_, h2⟩
    unfold processOp
    rw [if_pos hv, htv, except_ok_bind, hti, except_ok_bind]
    exact h1
  · intro fs h
    rw [show pyDictGet (Json.obj fs) "tags" (.arr [.str "other"]) =
      Except.ok ((Json.lookup fs "tags").getD (.arr [.str "other"])) from rfl,
      lookup_eq_none_of_hasKey_false h]
    rfl

/-- C5 witness: the amended grouping theorem applied to the two-tag
operation over the empty map. -/
theorem C5_grouping_amended_witness :
    ∃ tm', processOp [] "/x" "get" c5opTwoTags = .ok tm' ∧
      occCount tm' ("/x", "get", c5opTwoTags) =
        occCount ([] : TagsMap) ("/x", "get", c5opTwoTags) + 2 :=
  C5_grouping_amended.2.1 [] "/x" "get" c5opTwoTags [.str "a", .str "b"]
    rfl rfl (by decide)

/-! ## C4: sort keys -/

/-- Extract the folder-level (6-space indent) and request-level (10-space
indent) sortKey values from the output lines, in emission order; the
fixed environment sortKey line (8-space indent) matches neither prefix. -/
def extractSortKeys (ls : List String) : List Int :=
  ls.filterMap (fun l =>
    if strStarts l "      sortKey: " then strToInt (strDrop l 15)
    else if strStarts l "          sortKey: " then strToInt (strDrop l 19)
    else none)

/-- Companion model of the source counter logic: for folder bucket sizes
`ns`, the folder at counter `c` emits key `c`, its `n` requests emit
`c - 1 - i` (the counter is decremented only once, before the request
loop), and the next folder starts at `c - 1`. -/
def sortKeySeq : Int → List Nat → List Int
  | _, [] => []
  | c, n :: ns =>
    (c :: (List.range n).map (fun (i : Nat) => c - 1 - (i : Int))) ++ sortKeySeq (c - 1) ns

theorem keysDesc : ∀ (n : Nat) (d : Int),
    List.Chain' (fun a b => a > b) ((List.range n).map (fun (i : Nat) => d - (i : Int))) := by
  intro n
  induction n with
  | zero => intro d; simp
  | succ n ih =>
    intro d
    rw [List.range_succ_eq_map, List.map_cons, List.map_map]
    have hf : ((fun (i : Nat) => d - (i : Int)) ∘ Nat.succ) = (fun (i : Nat) => (d - 1) - (i : Int)) := by
      funext x
      simp [Function.comp]
      ring
    rw [hf, List.chain'_cons']
    refine ⟨?_, ih (d - 1)⟩
    intro h hh
    cases n with
    | zero => simp at hh
    | succ m =>
      rw [List.range_succ_eq_map, List.map_cons, List.head?_cons, Option.mem_def,
        Option.some.injEq] at hh
      omega

def c4opA : Json := .obj [("tags", .arr [.str "a"]), ("responses", .obj [])]

def c4opB : Json := .obj [("tags", .arr [.str "b"]), ("responses", .obj [])]

/-- Two folders with one endpoint each. -/
def c4doc : Json := .obj [("paths", .obj [
  ("/x", .obj [("get", c4opA)]),
  ("/y", .obj [("get", c4opB)])])]

/-- Folder `a` with two endpoints, folder `b` with one. -/
def c4doc2 : Json := .obj [("paths", .obj [
  ("/x", .obj [("get", c4opA)]),
  ("/y", .obj [("get", c4opA)]),
  ("/z", .obj [("get", c4opB)])])]

set_option maxRecDepth 8000 in
/-- C4 counterexample: for a document with two one-endpoint folders the
emitted sortKeys are base, base-1, base-1, base-2 — the second folder
repeats the first folder's request key, so the document-wide sequence is
not strictly decreasing. -/
theorem C4_sortkeys_counterexample :
    (generate_collection_lines c4doc).map extractSortKeys =
      .ok [startCounter, startCounter - 1, startCounter - 1, startCounter - 2] ∧
    ¬ List.Chain' (fun a b => a > b)
      [startCounter, startCounter - 1, startCounter - 1, startCounter - 2] := by
  refine ⟨rfl, ?_⟩
  simp only [List.chain'_cons, List.chain'_singleton, startCounter, gt_iff_lt, and_true]
  omega

set_option maxRecDepth 8000 in
/-- C4, amended: each folder block's keys strictly decrease (folder key
`c`, then requests `c-1, c-2, ...`), and the folder keys themselves
strictly decrease across folders (`base, base-1, ...`); the key stream
decomposes block by block as `sortKeySeq`, which matches the keys
actually extracted from a rendered document — but, as the counter is
only decremented once per folder, the concatenated stream is not
globally strictly decreasing. -/
theorem C4_sortkeys_amended :
    (∀ (c : Int) (n : Nat),
      List.Chain' (fun a b => a > b)
        (c :: (List.range n).map (fun (i : Nat) => c - 1 - (i : Int)))) ∧
    (∀ (c : Int) (ns : List Nat),
      List.Chain' (fun a b => a > b)
        ((List.range ns.length).map (fun (j : Nat) => c - (j : Int)))) ∧
    (∀ (c : Int) (n : Nat) (ns : List Nat),
      sortKeySeq c (n :: ns) =
        (c :: (List.range n).map (fun (i : Nat) => c - 1 - (i : Int))) ++
          sortKeySeq (c - 1) ns) ∧
    (generate_collection_lines c4doc2).map extractSortKeys =
      .ok (sortKeySeq startCounter [2, 1]) := by
  refine ⟨?_, fun c ns => keysDesc ns.length c, fun c n ns => rfl, rfl⟩
  intro c n
  have hf : (fun (i : Nat) => c - 1 - (i : Int)) = (fun (i : Nat) => (c - 1) - (i : Int)) := rfl
  rw [hf, List.chain'_cons']
  refine ⟨?_, keysDesc n (c - 1)⟩
  intro h hh
  cases n with
  | zero => simp at hh
  | succ m =>
    rw [List.range_succ_eq_map, List.map_cons, List.head?_cons, Option.mem_def,
      Option.some.injEq] at hh
    omega

/-! ## C6: output ordering -/

theorem charListLt_asymm : ∀ x y : List Char,
    charListLt x y = true → charListLt y x = false := by
  intro x
  induction x with
  | nil =>
    intro y h
    cases y with
    | nil => simp [charListLt] at h
    | cons b bs => rfl
  | cons a as ih =>
    intro y h
    cases y with
    | nil => simp [charListLt] at h
    | cons b bs =>
      unfold charListLt at h ⊢
      by_cases hab : a.toNat < b.toNat
      · rw [if_neg (by omega), if_pos hab]
      · by_cases hba : b.toNat < a.toNat
        · rw [if_neg hab, if_pos hba] at h
          exact absurd h (by simp)
        · rw [if_neg hab, if_neg hba] at h
          rw [if_neg hba, if_neg hab]
          exact ih bs h

theorem charListLt_trans : ∀ x y z : List Char,
    charListLt x y = true → charListLt y z = true → charListLt x z = true := by
  intro x
  induction x with
  | nil =>
    intro y z h1 h2
    cases y with
    | nil => simp [charListLt] at h1
    | cons b bs =>
      cases z with
      | nil => simp [charListLt] at h2
      | cons c cs => rfl
  | cons a as ih =>
    intro y z h1 h2
    cases y with
    | nil => simp [charListLt] at h1
    | cons b bs =>
      cases z with
      | nil => simp [charListLt] at h2
      | cons c cs =>
        unfold charListLt at h1 h2 ⊢
        by_cases hab : a.toNat < b.toNat
        · by_cases hbc : b.toNat < c.toNat
          · rw [if_pos (by omega)]
          · by_cases hcb : c.toNat < b.toNat
            · rw [if_neg hbc, if_pos hcb] at h2
              exact absurd h2 (by simp)
            · rw [if_pos (by omega)]
        · by_cases hba : b.toNat < a.toNat
          · rw [if_neg hab, if_pos hba] at h1
            exact absurd h1 (by simp)
          · by_cases hbc : b.toNat < c.toNat
            · rw [if_pos (by omega)]
            · by_cases hcb : c.toNat < b.toNat
              · rw [if_neg hbc, if_pos hcb] at h2
                exact absurd h2 (by simp)
              · rw [if_neg hab, if_neg hba] at h1
                rw [if_neg hbc, if_neg hcb] at h2
                rw [if_neg (by omega), if_neg (by omega)]
                exact ih bs cs h1 h2

theorem charListLt_connex : ∀ x y : List Char,
    charListLt x y = false → charListLt y x = false → x = y := by
  intro x
  induction x with
  | nil =>
    intro y h1 _
    cases y with
    | nil => rfl
    | cons b bs => simp [charListLt] at h1
  | cons a as ih =>
    intro y h1 h2
    cases y with
    | nil => simp [charListLt] at h2
    | cons b bs =>
      unfold charListLt at h1 h2
      by_cases hab : a.toNat < b.toNat
      · rw [if_pos hab] at h1
        exact absurd h1 (by simp)
      · by_cases hba : b.toNat < a.toNat
        · rw [if_pos hba] at h2
          exact absurd h2 (by simp)
        · rw [if_neg hab, if_neg hba] at h1
          rw [if_neg hba, if_neg hab] at h2
          have hn : a.toNat = b.toNat := by omega
          have hc : a = b := Char.ext (UInt32.toNat.inj hn)
          rw [hc, ih bs h1 h2]

theorem charListLt_negtrans : ∀ x y z : List Char,
    charListLt x y = false → charListLt y z = false → charListLt x z = false := by
  intro x y z h1 h2
  by_cases hxz : charListLt x z = true
  · by_cases hyx : charListLt y x = true
    · have ht := charListLt_trans y x z hyx hxz
      rw [ht] at h2
      exact absurd h2 (by simp)
    · have hyx' : charListLt y x = false := by simpa using hyx
      have hxy : x = y := charListLt_connex x y h1 hyx'
      rw [hxy] at hxz
      rw [hxz] at h2
      exact absurd h2 (by simp)
  · simpa using hxz

theorem endpointLe_total : ∀ a b : String × String × Json,
    endpointLe a b = true ∨ endpointLe b a = true := by
  intro a b
  unfold endpointLe
  by_cases h1 : strLt a.1 b.1 = true
  · left
    rw [h1, Bool.true_or]
  · by_cases h2 : strLt b.1 a.1 = true
    · right
      rw [h2, Bool.true_or]
    · have h1' : strLt a.1 b.1 = false := by simpa using h1
      have h2' : strLt b.1 a.1 = false := by simpa using h2
      have he : a.1 = b.1 := String.ext (charListLt_connex _ _ h1' h2')
      by_cases h3 : strLt b.2.1 a.2.1 = true
      · right
        rw [Bool.or_eq_true, Bool.and_eq_true]
        refine Or.inr ⟨by rw [he]; simp, ?_⟩
        unfold strLe
        rw [show strLt a.2.1 b.2.1 = false from charListLt_asymm _ _ h3]
        rfl
      · left
        rw [Bool.or_eq_true, Bool.and_eq_true]
        refine Or.inr ⟨by rw [he]; simp, ?_⟩
        unfold strLe
        rw [show strLt b.2.1 a.2.1 = false from by simpa using h3]
        rfl

theorem endpointLe_trans : ∀ a b c : String × String × Json,
    endpointLe a b = true → endpointLe b c = true → endpointLe a c = true := by
  intro a b c h1 h2
  unfold endpointLe at h1 h2 ⊢
  rw [Bool.or_eq_true] at h1 h2 ⊢
  rcases h1 with h1 | h1
  · rcases h2 with h2 | h2
    · exact Or.inl (charListLt_trans _ _ _ h1 h2)
    · rw [Bool.and_eq_true] at h2
      have he : b.1 = c.1 := by simpa using h2.1
      left
      rw [← he]
      exact h1
  · rw [Bool.and_eq_true] at h1
    have he : a.1 = b.1 := by simpa using h1.1
    rcases h2 with h2 | h2
    · left
      rw [he]
      exact h2
    · rw [Bool.and_eq_true] at h2
      have he2 : b.1 = c.1 := by simpa using h2.1
      right
      rw [Bool.and_eq_true]
      refine ⟨by rw [he, he2]; simp, ?_⟩
      have q1 := h1.2
      have q2 := h2.2
      unfold strLe at q1 q2 ⊢
      rw [Bool.not_eq_true'] at q1 q2 ⊢
      exact charListLt_negtrans _ _ _ q2 q1

theorem insertLe_perm {α : Type} (le : α → α → Bool) (a : α) :
    ∀ l : List α, (insertLe le a l).Perm (a :: l) := by
  intro l
  induction l with
  | nil => exact List.Perm.refl _
  | cons b bs ih =>
    unfold insertLe
    by_cases h : le a b = true
    · rw [if_pos h]
    · rw [if_neg h]
      exact (ih.cons b).trans (List.Perm.swap a b bs)

theorem insertionSortBy_perm {α : Type} (le : α → α → Bool) :
    ∀ l : List α, (insertionSortBy le l).Perm l := by
  intro l
  induction l with
  | nil => exact List.Perm.refl _
  | cons x xs ih =>
    unfold insertionSortBy
    exact (insertLe_perm le x (insertionSortBy le xs)).trans (ih.cons x)

theorem insertLe_sorted {α : Type} (le : α → α → Bool)
    (htot : ∀ a b, le a b = true ∨ le b a = true)
    (htr : ∀ a b c, le a b = true → le b c = true → le a c = true)
    (a : α) : ∀ l : List α, l.Pairwise (fun x y => le x y = true) →
      (insertLe le a l).Pairwise (fun x y => le x y = true) := by
  intro l
  induction l with
  | nil =>
    intro _
    exact List.pairwise_singleton _ _
  | cons b bs ih =>
    intro hp
    rw [List.pairwise_cons] at hp
    unfold insertLe
    by_cases h : le a b = true
    · rw [if_pos h, List.pairwise_cons]
      refine ⟨?_, by rw [List.pairwise_cons]; exact hp⟩
      intro x hx
      rcases List.mem_cons.mp hx with rfl | hx2
      · exact h
      · exact htr a b x h (hp.1 x hx2)
    · rw [if_neg h, List.pairwise_cons]
      refine ⟨?_, ih hp.2⟩
      intro x hx
      have hx' := (insertLe_perm le a bs).mem_iff.mp hx
      rcases List.mem_cons.mp hx' with rfl | hx2
      · rcases htot x b with hh | hh
        · exact absurd hh h
        · exact hh
      · exact hp.1 x hx2

theorem insertionSortBy_sorted {α : Type} (le : α → α → Bool)
    (htot : ∀ a b, le a b = true ∨ le b a = true)
    (htr : ∀ a b c, le a b = true → le b c = true → le a c = true) :
    ∀ l : List α, (insertionSortBy le l).Pairwise (fun x y => le x y = true) := by
  intro l
  induction l with
  | nil => exact List.Pairwise.nil
  | cons x xs ih =>
    unfold insertionSortBy
    exact insertLe_sorted le htot htr x (insertionSortBy le xs) ih

theorem pyMemList_append (t : Json) (l1 l2 : List Json) :
    pyMemList t (l1 ++ l2) = (pyMemList t l1 || pyMemList t l2) := by
  simp [pyMemList, List.any_append]

theorem foldl_dedup : ∀ (keys acc : List Json),
    keys.Pairwise (fun a b => pyEq b a = false) →
    keys.foldl (fun acc t => if pyMemList t acc then acc else acc ++ [t]) acc
      = acc ++ keys.filter (fun t => !pyMemList t acc) := by
  intro keys
  induction keys with
  | nil =>
    intro acc _
    simp
  | cons t ts ih =>
    intro acc hp
    rw [List.pairwise_cons] at hp
    rw [List.foldl_cons, List.filter_cons]
    by_cases hm : pyMemList t acc = true
    · rw [if_pos hm, hm]
      simp only [Bool.not_true, Bool.false_eq_true, if_false]
      exact ih acc hp.2
    · have hm' : pyMemList t acc = false := by simpa using hm
      rw [if_neg hm, hm']
      simp only [Bool.not_false, if_true]
      rw [ih (acc ++ [t]) hp.2, List.append_assoc]
      congr 1
      rw [List.singleton_append]
      congr 1
      apply List.filter_congr
      intro x hx
      rw [pyMemList_append]
      have hxt : pyMemList x [t] = false := by
        simp [pyMemList, hp.1 x hx]
      rw [hxt, Bool.or_false]

/-- C6: folders are emitted in the fixed preferred order
`["meta", "chain", "game"]` followed by the remaining tags in first-seen
order — for pairwise-distinct tag keys, `all_tags` is the preferred list
followed by exactly the non-preferred keys in scan order (the render loop
then skips preferred tags with no bucket); the spec's concrete instance
`["game", "other", "chain", "meta"] ↦ ["meta", "chain", "game", "other"]`
holds; and within each folder the bucket emerging from the sort phase is
a permutation of the grouped endpoints ordered ascending by the
case-sensitive `(path, method)` comparator. -/
theorem C6_output_ordering :
    (∀ keys : List Json,
      keys.Pairwise (fun a b => pyEq b a = false) →
      buildAllTags keys =
        tagOrderJson ++ keys.filter (fun t => !pyMemList t tagOrderJson)) ∧
    buildAllTags [.str "game", .str "other", .str "chain", .str "meta"] =
      [.str "meta", .str "chain", .str "game", .str "other"] ∧
    (∀ tm : TagsMap, ∀ p ∈ sortTags tm,
      p.2.Pairwise (fun a b => endpointLe a b = true)) ∧
    (∀ l : List (String × String × Json), (insertionSortBy endpointLe l).Perm l) := by
  refine ⟨fun keys hp => foldl_dedup keys tagOrderJson hp, rfl, ?_,
    insertionSortBy_perm endpointLe⟩
  intro tm p hp
  unfold sortTags at hp
  rw [List.mem_map] at hp
  obtain ⟨kv, hkv, rfl⟩ := hp
  exact insertionSortBy_sorted endpointLe endpointLe_total endpointLe_trans kv.2

/-- C6 witness: the ordering theorem applied to the concrete key list
`["game", "x"]`. -/
theorem C6_output_ordering_witness :
    buildAllTags [.str "game", .str "x"] =
      tagOrderJson ++
        ([Json.str "game", Json.str "x"].filter (fun t => !pyMemList t tagOrderJson)) :=
  C6_output_ordering.1 [.str "game", .str "x"] (by decide)
